import Mathlib

/-!
# spiritor: size-capped bitrate selection and the per-file transform protocol

A shallow embedding of `avmedia` (media.go, transform.go, errors.go) and of the
probe helpers of `ffmpeg` (ffmpeg.go), with theorems about the bitrate selector
`calculateBestBitrate`, the config validator `DownsampleOGGConfig.Validate`, the
transform `Media.DownsampleOGG` and the probes.

Conventions.
* Go `int64` / `int` values are `Int`; the one place where the source multiplies
  (`bitrate48k*seconds`) keeps the two's-complement wrap explicitly (`wrapInt64`).
* Go `/` on integers truncates toward zero: `Int.tdiv`.
* `time.Duration` is an `Int` number of nanoseconds.
* `float64` arithmetic is modelled exactly (round to nearest, ties to even, 53-bit
  significand) on non-negative rationals `num / den`; see `roundFloat64`.
-/

namespace Spiritor

set_option maxRecDepth 100000

/-! ## float64 rounding, as used by `time.Duration.Seconds` -/

/-- Quotient `n / d` rounded to the nearest natural number, ties to the even one. -/
def roundNearestEven (n d : Nat) : Nat :=
  let q := n / d
  let r := n % d
  if 2 * r < d then q
  else if d < 2 * r then q + 1
  else if q % 2 = 0 then q
  else q + 1

/-- Binary digit count by repeated halving, at most `fuel` halvings. -/
def bitLengthAux : Nat → Nat → Nat
  | 0, _ => 0
  | fuel + 1, n => if n = 0 then 0 else bitLengthAux fuel (n / 2) + 1

/-- Number of binary digits of `n` (0 for 0); `n` halvings always suffice. -/
def bitLength (n : Nat) : Nat := bitLengthAux n n

/-- The float64 nearest to the non-negative rational `p / q` (ties to even), returned
as a fraction `(num, den)` with `den` a power of two.  The quotient is scaled by
`2 ^ s` so that it has more than 53 binary digits, the digits below the 53rd are
rounded away, and the scaling is kept as the denominator.  Exponent range limits
(subnormals, overflow to infinity) are not modelled: the values this file rounds
lie between `1e-9` and `1e10`. -/
def roundFloat64 (p q : Nat) : Nat × Nat :=
  let s := 64 + bitLength q
  let x := p * 2 ^ s
  let j := bitLength (x / q) - 53
  (roundNearestEven x (q * 2 ^ j) * 2 ^ j, 2 ^ s)

/-- Magnitude of `int64(math.Round(d.Seconds()))` for a duration of magnitude `n`
nanoseconds.  `Duration.Seconds` is `float64(sec) + float64(nsec)/1e9` with
`sec = d / Second`, `nsec = d % Second`: one float64 division, one float64 addition
(`float64(sec)` and `float64(nsec)` are exact, both being below `2^53`), then
`math.Round` rounds half away from zero. -/
def roundedSecondsAbs (n : Nat) : Nat :=
  let sec := n / 1000000000
  let nsec := n % 1000000000
  let frac := roundFloat64 nsec 1000000000
  let sum := roundFloat64 (sec * frac.2 + frac.1) frac.2
  (2 * sum.1 + sum.2) / (2 * sum.2)

/-- The value `int64(math.Round(d.Seconds()))` for a duration `d` in nanoseconds.  Go
truncates both `/` and `%` toward zero, so `sec` and `nsec` carry the sign of `d`,
and float64 division, addition and `math.Round` are all odd functions: the result is
the sign of `d` times the result for `|d|`. -/
def roundedSeconds (d : Int) : Int :=
  if d < 0 then -((roundedSecondsAbs d.natAbs : Nat) : Int)
  else ((roundedSecondsAbs d.natAbs : Nat) : Int)

/-! ## media.go -/

/-- The struct `Media` of media.go (all fields unexported in the source). -/
structure Media where
  /-- absolute file path -/
  path : String
  /-- file size in bytes (`int64`) -/
  size : Int
  /-- playback length (`time.Duration`, nanoseconds) -/
  duration : Int
  /-- encoded bitrate (`int`) -/
  bitrate : Int
  /-- internal tracking for properly initialized media -/
  initialized : Bool
  deriving DecidableEq

/-- The Go zero value `var media Media`. -/
def Media.zero : Media :=
  { path := "", size := 0, duration := 0, bitrate := 0, initialized := false }

/-! ## transform.go: the bitrate selector -/

def bitrate48k : Int := 48000
def bitrate24k : Int := 24000
def bitrate12k : Int := 12000

def str48k : String := "48k"
def str24k : String := "24k"
def str12k : String := "12k"

/-- The range of a Go `int64`. -/
def isInt64 (x : Int) : Prop := -2 ^ 63 ≤ x ∧ x < 2 ^ 63

instance (x : Int) : Decidable (isInt64 x) := by
  unfold isInt64; infer_instance

/-- Two's-complement wrap of an integer into the `int64` range, as Go's `int64`
multiplication does. -/
def wrapInt64 (x : Int) : Int := (x + 2 ^ 63) % 2 ^ 64 - 2 ^ 63

/-- The function `calculateBestBitrate` of transform.go. -/
def calculateBestBitrate (sourceMedia : Media) (sizeCap : Int) : String := Id.run do
  let bitrate : Int := sourceMedia.bitrate
  let seconds : Int := roundedSeconds sourceMedia.duration
  if bitrate = 0 ∨ seconds = 0 then
    return str12k
  if bitrate > bitrate48k then
    if (wrapInt64 (bitrate48k * seconds)).tdiv 8 < sizeCap then
      return str48k
  if bitrate > bitrate24k then
    if (wrapInt64 (bitrate24k * seconds)).tdiv 8 < sizeCap then
      return str24k
  return str12k

/-! ## errors.go -/

/-- The Go `error` values that `avmedia` and `ffmpeg` build. -/
inductive GoError where
  /-- an error that carries only a text: `fmt.Errorf` without `%w`, or an error
  text handed over by the standard library; it has no `Unwrap` -/
  | text (msg : String)
  /-- the value of `fmt.Errorf(pre + "%w", err)`; `Unwrap` gives `err` -/
  | wrapped (pre : String) (err : GoError)
  /-- the value of `errors.Join(errs...)` for a non-empty list of non-nil errors -/
  | joined (errs : List GoError)
  /-- the struct `ErrFileOp` with field `Err` -/
  | ErrFileOp (err : GoError)
  /-- the struct `ErrValidation` with field `Err` -/
  | ErrValidation (err : GoError)
  /-- the struct `ErrSizeCapExceeded` with fields `SizeCap`, `FileSize` -/
  | ErrSizeCapExceeded (sizeCap fileSize : Int)

mutual
/-- The method `Error()` of each error; `%v` of an `int64` is its decimal text. -/
def GoError.Error : GoError → String
  | .text msg => msg
  | .wrapped pre err => pre ++ err.Error
  | .joined errs => GoError.joinLines errs
  | .ErrFileOp err => "file operation error: " ++ err.Error
  | .ErrValidation err => "validation error: " ++ err.Error
  | .ErrSizeCapExceeded sizeCap fileSize =>
      "file size [" ++ toString sizeCap ++ "] exceeded the maximum size cap: " ++
        toString fileSize
/-- The text of a joined error: the texts of its parts, one per line. -/
def GoError.joinLines : List GoError → String
  | [] => ""
  | [e] => e.Error
  | e :: es => e.Error ++ "\n" ++ GoError.joinLines es
end

/-- The method `Unwrap() error` where the error has one. -/
def GoError.Unwrap : GoError → Option GoError
  | .wrapped _ err => some err
  | .ErrFileOp err => some err
  | .ErrValidation err => some err
  | _ => none

/-- What `errors.As(err, &target)` finds for a target of type `ErrSizeCapExceeded`:
the first such value on the `Unwrap` chain of `err`, as `(SizeCap, FileSize)`. -/
def GoError.asSizeCapExceeded : GoError → Option (Int × Int)
  | .ErrSizeCapExceeded sizeCap fileSize => some (sizeCap, fileSize)
  | .wrapped _ err => err.asSizeCapExceeded
  | .ErrFileOp err => err.asSizeCapExceeded
  | .ErrValidation err => err.asSizeCapExceeded
  | _ => none

/-- How a Go call ends: it returns a value, or it panics. -/
inductive Outcome (α : Type) where
  | returned (a : α)
  | panicked (msg : String)

/-- Text of the run-time panic raised by a method call on a nil interface value. -/
def nilDereference : String :=
  "runtime error: invalid memory address or nil pointer dereference"

/-! ## The world outside the package: filesystem, external tools, library parsers -/

/-- What `os.Stat` reports about an existing path (`os.FileInfo`). -/
structure FileInfo where
  /-- the result of `IsDir()` -/
  isDir : Bool
  /-- the result of `Size()` -/
  size : Int
  deriving DecidableEq

/-- The filesystem as explicit state: the paths that exist and what is there. -/
abbrev FS := String → Option FileInfo

/-- A filesystem with `info` at `path` and everything else as in `fs`. -/
def FS.write (fs : FS) (path : String) (info : FileInfo) : FS :=
  fun p => if p = path then some info else fs p

/-- A filesystem without `path` and everything else as in `fs`. -/
def FS.remove (fs : FS) (path : String) : FS :=
  fun p => if p = path then none else fs p

/-- Whether `path` is the directory `dir` itself or lies below it. -/
def isUnder (dir path : String) : Bool :=
  path = dir || (dir.data ++ ['/']).isPrefixOf path.data

/-- A state-changing call made to the operating system. -/
inductive Event where
  /-- the call `os.MkdirTemp` created the directory `created` -/
  | mkdirTemp (created : String)
  /-- a program was started through `exec.Command(app, args...)` to change files -/
  | exec (app : String) (args : List String)
  /-- the call `os.Rename(oldpath, newpath)` was made -/
  | rename (oldpath newpath : String)
  /-- the call `os.RemoveAll(path)` was made -/
  | removeAll (path : String)
  deriving DecidableEq

/-- The state a call runs in: the filesystem and the record of state-changing calls
made so far, oldest first. -/
structure World where
  fs : FS
  log : List Event

/-- What `execCmd` hands back: `(strings.TrimSpace(output), nil)` on success,
`(output, err)` when the command failed. -/
structure ExecResult where
  output : String
  err : Option String
  deriving DecidableEq

/-- The behaviour of everything the package calls but does not define.  Each field
is the result such a call produces; the theorems hold for every choice. -/
structure Env where
  /-- the call `os.MkdirTemp("", "spiritor")` in a given filesystem: the path of the directory
  it creates, or the text of its error -/
  mkdirTemp : FS → String × Option String
  /-- a run of `ffmpeg` through `execCmd`: its result, and the file it leaves at its
  target path (the last argument), if any -/
  ffmpeg : FS → List String → ExecResult × Option FileInfo
  /-- a run of `ffprobe` through `execCmd` (it only reads) -/
  ffprobe : FS → List String → ExecResult
  /-- the text of the error with which `os.Rename` fails although the old path
  exists (permissions, other device, ...), if it does -/
  renameFailure : FS → String → String → Option String
  /-- the library function `strconv.Atoi` -/
  strconvAtoi : String → Int × Option String
  /-- the library function `time.ParseDuration`, in nanoseconds -/
  timeParseDuration : String → Int × Option String

/-- The call `os.Stat(name)`: the `FileInfo` of an existing path, and otherwise an
error (the `FileInfo` that Go returns next to the error is nil). -/
def osStat (fs : FS) (name : String) : Except String FileInfo :=
  match fs name with
  | some info => .ok info
  | none => .error ("stat " ++ name ++ ": no such file or directory")

/-- The call `os.MkdirTemp("", "spiritor")`: on success the new directory exists. -/
def osMkdirTemp (env : Env) (w : World) : String × Option String × World :=
  match env.mkdirTemp w.fs with
  | (_, some err) => ("", some err, w)
  | (dir, none) =>
      (dir, none,
        { fs := w.fs.write dir { isDir := true, size := 0 },
          log := w.log ++ [Event.mkdirTemp dir] })

/-- The call `os.RemoveAll(path)`: `path` and everything below it is gone. -/
def osRemoveAll (w : World) (path : String) : World :=
  { fs := fun p => if isUnder path p then none else w.fs p,
    log := w.log ++ [Event.removeAll path] }

/-- The call `os.Rename(oldpath, newpath)` for a file: it fails without any change,
or the file is at `newpath` and no longer at `oldpath`. -/
def osRename (env : Env) (w : World) (oldpath newpath : String) : Option String × World :=
  let w1 : World := { w with log := w.log ++ [Event.rename oldpath newpath] }
  match w.fs oldpath with
  | none => (some ("rename " ++ oldpath ++ " " ++ newpath ++ ": no such file or directory"), w1)
  | some info =>
      match env.renameFailure w.fs oldpath newpath with
      | some err => (some err, w1)
      | none => (none, { w1 with fs := (w.fs.remove oldpath).write newpath info })

/-- The function `filepath.Ext`: the suffix beginning at the final dot of the final
element of the path, empty when there is none.  The argument is the path read
backwards; `acc` collects what has been passed. -/
def filepathExtAux : List Char → List Char → List Char
  | [], _ => []
  | c :: rest, acc =>
      if c = '/' then []
      else if c = '.' then '.' :: acc
      else filepathExtAux rest (c :: acc)

/-- The function `filepath.Ext` (path separator `/`). -/
def filepathExt (path : String) : String :=
  String.mk (filepathExtAux path.data.reverse [])

/-- The function `filepath.Base` (path separator `/`): the last element of the
path, after removing trailing slashes; "." for the empty path and "/" for a path
of slashes only. -/
def filepathBase (path : String) : String :=
  if path = "" then "."
  else
    let stripped := path.data.reverse.dropWhile (fun c => c = '/')
    let last := stripped.takeWhile (fun c => c ≠ '/')
    if last = [] then "/" else String.mk last.reverse

/-- The function `filepath.Join` for a directory and one file name.  A path of the
model is the name under which the filesystem knows a file, so the result is the
entry `name` of the directory `dir`; the lexical rewriting that `filepath.Join`
also applies to the string (doubled slashes, `.` and `..` elements), which does not
change the file that is meant, is not modelled. -/
def filepathJoin (dir name : String) : String :=
  dir ++ "/" ++ name

/-- The call `strings.TrimLeft(s, ".")`. -/
def trimLeftDots (s : String) : String :=
  String.mk (s.data.dropWhile (fun c => c = '.'))

/-- The call `strings.ToLower(s)` on the letters `A`..`Z`.  Go also lower-cases
letters outside ASCII; none of them becomes one of the letters of "mp3", "aac",
"wav", so membership of the result in the allowed set is not affected. -/
def stringsToLower (s : String) : String :=
  String.mk (s.data.map Char.toLower)

/-! ## ffmpeg.go -/

/-- The arguments `DownsampleOpus` passes to `ffmpeg`; the target path is the last. -/
def downsampleOpusArgs (sourceFilePath targetFilePath targetBitrate : String) : List String :=
  ["-i", sourceFilePath, "-vn", "-map_metadata", "-1", "-ac", "1", "-c:a", "libopus", "-b:a",
    targetBitrate, "-application", "voip", "-threads", "4", targetFilePath]

/-- The function `DownsampleOpus`: one run of `ffmpeg`. -/
def DownsampleOpus (env : Env) (w : World) (sourceFilePath targetFilePath targetBitrate : String) :
    Option GoError × World :=
  let app := "ffmpeg"
  let args := downsampleOpusArgs sourceFilePath targetFilePath targetBitrate
  let (res, written) := env.ffmpeg w.fs args
  let fs1 : FS :=
    match written with
    | some info => w.fs.write targetFilePath info
    | none => w.fs
  let w1 : World := { fs := fs1, log := w.log ++ [Event.exec app args] }
  match res.err with
  | some err => (some (.text ("downsample opus error: " ++ err ++ ": " ++ res.output)), w1)
  | none => (none, w1)

/-- The arguments `ProbeBitrate` passes to `ffprobe`. -/
def probeBitrateArgs (filePath : String) : List String :=
  ["-v", "error", "-select_streams", "a:0", "-show_entries", "stream=bit_rate", "-of",
    "default=noprint_wrappers=1:nokey=1", filePath]

/-- The arguments `ProbeDuration` passes to `ffprobe`. -/
def probeDurationArgs (filePath : String) : List String :=
  ["-v", "error", "-select_streams", "a:0", "-show_entries", "stream=duration", "-of",
    "default=noprint_wrappers=1:nokey=1", filePath]

/-- The function `ProbeBitrate`. -/
def ProbeBitrate (env : Env) (fs : FS) (filePath : String) : Int × Option GoError :=
  let bitrate : Int := 0
  let res := env.ffprobe fs (probeBitrateArgs filePath)
  match res.err with
  | some err => (bitrate, some (.text ("probe error: " ++ err ++ ": " ++ res.output)))
  | none =>
      if res.output = "N/A" then (bitrate, none)
      else
        match env.strconvAtoi res.output with
        | (bitrate, some err) =>
            (bitrate, some (.text ("could not covert [" ++ res.output ++ "] to int: " ++ err)))
        | (bitrate, none) => (bitrate, none)

/-- The function `ProbeDuration`. -/
def ProbeDuration (env : Env) (fs : FS) (filePath : String) : Int × Option GoError :=
  let duration : Int := 0
  let res := env.ffprobe fs (probeDurationArgs filePath)
  match res.err with
  | some err => (duration, some (.text ("probe error: " ++ err ++ ": " ++ res.output)))
  | none =>
      match env.timeParseDuration (res.output ++ "s") with
      | (duration, some err) =>
          (duration,
            some (.text ("could not covert [" ++ res.output ++ "]s to duration: " ++ err)))
      | (duration, none) => (duration, none)

/-! ## media.go: accessors and constructor -/

/-- The method `GetPath`. -/
def Media.GetPath (f : Media) : String := f.path

/-- The method `GetName`. -/
def Media.GetName (f : Media) : String := filepathBase f.path

/-- The method `GetExt`. -/
def Media.GetExt (f : Media) : String :=
  stringsToLower (trimLeftDots (filepathExt f.path))

/-- The method `GetSize`. -/
def Media.GetSize (f : Media) : Int := f.size

/-- The function `NewMedia` (its `debug` printing left out). -/
def NewMedia (env : Env) (fs : FS) (filePath : String) : Media × Option GoError :=
  let media := Media.zero
  match osStat fs filePath with
  | .error err => (media, some (.ErrFileOp (.text ("failed to stat file: " ++ err))))
  | .ok fileInfo =>
      let media := { media with path := filePath, size := fileInfo.size }
      match ProbeBitrate env fs filePath with
      | (_, some err) =>
          (media, some (.ErrFileOp (.text ("failed to probe bitrate: " ++ err.Error))))
      | (bitrate, none) =>
          let media := { media with bitrate := bitrate }
          match ProbeDuration env fs filePath with
          | (_, some err) =>
              (media, some (.ErrFileOp (.text ("failed to probe duration: " ++ err.Error))))
          | (duration, none) =>
              let media := { media with duration := duration }
              let media := { media with initialized := true }
              (media, none)

/-! ## transform.go: configuration and transform -/

def extMP3 : String := "mp3"
def extAAC : String := "aac"
def extWAV : String := "wav"
def extOGG : String := "ogg"

/-- The key set of the map `downsampleOGGExt`. -/
def downsampleOGGExt : List String := [extMP3, extAAC, extWAV]

/-- The function `ExtAllowedDownsampleOGG`. -/
def ExtAllowedDownsampleOGG (ext : String) : Bool :=
  if ¬ (ext ∈ downsampleOGGExt) then false
  else true

/-- The constant `DownsampleStrategyAutoBest` of the string type
`DownsampleStrategyOption`. -/
def DownsampleStrategyAutoBest : String := "auto_best"

/-- The struct `DownsampleOGGConfig`. -/
structure DownsampleOGGConfig where
  /-- base path for the final output target file -/
  OutputBasePath : String
  /-- max allowed size of target file (`int64`) -/
  SizeCap : Int
  /-- strategy for the downsampling steps (`DownsampleStrategyOption`) -/
  Strategy : String
  deriving DecidableEq

/-- The method `DownsampleOGGConfig.Validate`.  When `os.Stat` fails the source
appends the error to `errs` and goes on to call `basePathInfo.IsDir()`; the
`FileInfo` returned next to an error is nil, and a method call on it panics. -/
def DownsampleOGGConfig.Validate (fs : FS) (config : DownsampleOGGConfig) :
    Outcome (Option GoError) :=
  let errs : List GoError := []
  match osStat fs config.OutputBasePath with
  | .error _ => .panicked nilDereference
  | .ok basePathInfo =>
      let errs :=
        if ¬ basePathInfo.isDir then
          errs ++ [.text ("invalid OutputBasePath [" ++ config.OutputBasePath ++
            "]: not a directory")]
        else errs
      let errs :=
        if config.SizeCap = 0 then
          errs ++ [.text ("invalid SizeCap [" ++ toString config.SizeCap ++
            "]: must be greater than 0")]
        else errs
      let errs :=
        if config.Strategy ≠ DownsampleStrategyAutoBest then
          errs ++ [.text ("invalid Strategy [" ++ config.Strategy ++ "]: not recognized")]
        else errs
      if errs.length > 0 then .returned (some (.joined errs))
      else .returned none

/-- The part of `DownsampleOGG` that runs after `defer os.RemoveAll(workDir)` has
been registered: every `return` of the source below that line, with the returned
pair and the state reached. -/
def downsampleInWorkDir (env : Env) (w : World) (sourceMedia : Media)
    (config : DownsampleOGGConfig) (workDir : String) : (Media × Option GoError) × World :=
  let targetMedia := Media.zero
  let sourceFilePath := sourceMedia.GetPath
  let targetFilePath := filepathJoin workDir (sourceMedia.GetName ++ "." ++ extOGG)
  let finalFilePath := filepathJoin config.OutputBasePath (sourceMedia.GetName ++ "." ++ extOGG)
  let targetBitrate := calculateBestBitrate sourceMedia config.SizeCap
  match DownsampleOpus env w sourceFilePath targetFilePath targetBitrate with
  | (some err, w1) =>
      ((targetMedia, some (.ErrFileOp (.text ("ffmpeg failed: " ++ err.Error)))), w1)
  | (none, w1) =>
      match NewMedia env w1.fs targetFilePath with
      | (targetMedia, some err) =>
          ((targetMedia, some (.wrapped "new target media failed: " err)), w1)
      | (targetMedia, none) =>
          if targetMedia.GetSize > config.SizeCap then
            ((targetMedia, some (.ErrSizeCapExceeded config.SizeCap targetMedia.GetSize)), w1)
          else
            match osRename env w1 targetFilePath finalFilePath with
            | (some err, w2) =>
                ((targetMedia,
                  some (.ErrFileOp (.text ("file move/rename failed: " ++ err)))), w2)
            | (none, w2) =>
                match NewMedia env w2.fs finalFilePath with
                | (targetMedia, some err) =>
                    ((targetMedia, some (.wrapped "new final media failed: " err)), w2)
                | (targetMedia, none) => ((targetMedia, none), w2)

/-- The method `Media.DownsampleOGG` (`ctx` is not used by the source and `debug`
only prints; both are left out).  The deferred `os.RemoveAll(workDir)` runs after
whichever `return` ends the part below its registration. -/
def Media.DownsampleOGG (env : Env) (w : World) (sourceMedia : Media)
    (config : DownsampleOGGConfig) : Outcome (Media × Option GoError) × World :=
  let targetMedia := Media.zero
  if ¬ sourceMedia.initialized then
    (.returned (targetMedia,
      some (.ErrValidation (.text "media uninitialized: use media constructor"))), w)
  else
    match config.Validate w.fs with
    | .panicked msg => (.panicked msg, w)
    | .returned (some err) =>
        (.returned (targetMedia, some (.ErrValidation (.text ("bad config: " ++ err.Error)))), w)
    | .returned none =>
        if ¬ ExtAllowedDownsampleOGG sourceMedia.GetExt then
          (.returned (targetMedia,
            some (.ErrValidation (.text ("ext not allowed: " ++ sourceMedia.GetExt)))), w)
        else
          match osMkdirTemp env w with
          | (_, some err, w1) =>
              (.returned (targetMedia,
                some (.ErrFileOp (.text ("failed to create work dir: " ++ err)))), w1)
          | (workDir, none, w1) =>
              let (res, w2) := downsampleInWorkDir env w1 sourceMedia config workDir
              (.returned res, osRemoveAll w2 workDir)

/-! ## Example environments -/

/-- Value of a string of decimal digits read left to right, starting from `acc`. -/
def decimalValue : List Char → Nat → Option Nat
  | [], acc => some acc
  | c :: rest, acc =>
      if c.isDigit then decimalValue rest (10 * acc + (c.toNat - 48)) else none

/-- A stand-in for `strconv.Atoi` in the example environments: it reads unsigned
decimal numbers and reports every other text as a syntax error. -/
def exampleAtoi (s : String) : Int × Option String :=
  match s.data with
  | [] => (0, some ("strconv.Atoi: parsing \"" ++ s ++ "\": invalid syntax"))
  | cs =>
      match decimalValue cs 0 with
      | some n => ((n : Int), none)
      | none => (0, some ("strconv.Atoi: parsing \"" ++ s ++ "\": invalid syntax"))

/-- A stand-in for `time.ParseDuration` in the example environments: it reads a
whole number of seconds, `<digits>s`, and reports every other text as invalid. -/
def exampleParseDuration (s : String) : Int × Option String :=
  match s.data.reverse with
  | 's' :: c :: rest =>
      match decimalValue (c :: rest).reverse 0 with
      | some n => ((n : Int) * 1000000000, none)
      | none => (0, some ("time: invalid duration \"" ++ s ++ "\""))
  | _ => (0, some ("time: invalid duration \"" ++ s ++ "\""))

/-- A filesystem with an output directory `/out` and the source file
`/in/example_zoom.MP3` of the comment in `calculateBestBitrate`. -/
def exampleFS : FS := fun p =>
  if p = "/out" then some { isDir := true, size := 4096 }
  else if p = "/in/example_zoom.MP3" then some { isDir := false, size := 37865691 }
  else none

/-- The example filesystem with no call made yet. -/
def exampleWorld : World := { fs := exampleFS, log := [] }

/-- The descriptor of `/in/example_zoom.MP3` (size 37865691, bitrate 112000). -/
def exampleSource : Media :=
  { path := "/in/example_zoom.MP3", size := 37865691, duration := 2704692214000,
    bitrate := 112000, initialized := true }

/-- A valid configuration: existing directory, 25 MB cap, the one strategy. -/
def exampleConfig : DownsampleOGGConfig :=
  { OutputBasePath := "/out", SizeCap := 25000000, Strategy := DownsampleStrategyAutoBest }

/-- An environment in which `os.MkdirTemp` creates `/tmp/spiritor123`, `ffmpeg`
succeeds and leaves a file of `producedSize` bytes, `ffprobe` fails on the path
`probeFailsAt` and otherwise reports bitrate `N/A` and duration `2705`, and
`os.Rename` succeeds. -/
def exampleEnv (producedSize : Int) (probeFailsAt : String) : Env :=
  { mkdirTemp := fun _ => ("/tmp/spiritor123", none)
    ffmpeg := fun _ _ => ({ output := "", err := none }, some { isDir := false, size := producedSize })
    ffprobe := fun _ args =>
      if args.getLast? = some probeFailsAt then { output := "", err := some "exit status 1" }
      else if "stream=bit_rate" ∈ args then { output := "N/A", err := none }
      else { output := "2705", err := none }
    renameFailure := fun _ _ _ => none
    strconvAtoi := exampleAtoi
    timeParseDuration := exampleParseDuration }

/-- The example environment with an `ffprobe` that reports `N/A` for every entry. -/
def notAvailableEnv : Env :=
  { mkdirTemp := (exampleEnv 0 "").mkdirTemp
    ffmpeg := (exampleEnv 0 "").ffmpeg
    ffprobe := fun _ _ => { output := "N/A", err := none }
    renameFailure := (exampleEnv 0 "").renameFailure
    strconvAtoi := exampleAtoi
    timeParseDuration := exampleParseDuration }

/-- The example environment in which `ffmpeg` leaves a file of 30000000 bytes, more
than the cap of the example configuration. -/
def oversizeEnv : Env := exampleEnv 30000000 ""

/-- The state of the example after the workspace has been created. -/
def oversizeWorld1 : World := (osMkdirTemp oversizeEnv exampleWorld).2.2

/-- The state of the example after the run of `ffmpeg`. -/
def oversizeWorld2 : World :=
  (DownsampleOpus oversizeEnv oversizeWorld1 exampleSource.GetPath
    (filepathJoin "/tmp/spiritor123" (exampleSource.GetName ++ "." ++ extOGG))
    (calculateBestBitrate exampleSource exampleConfig.SizeCap)).2

/-- The descriptor probed from the oversized file in the workspace. -/
def oversizeMedia : Media :=
  { path := "/tmp/spiritor123/example_zoom.MP3.ogg", size := 30000000,
    duration := 2705000000000, bitrate := 0, initialized := true }

/-- The example environment in which `ffprobe` fails on the published file. -/
def finalProbeFailsEnv : Env := exampleEnv 7992132 "/out/example_zoom.MP3.ogg"

/-! ## Vocabulary of the specification -/

/-- The probe data of `example_signal.aac` quoted in the comment of
`calculateBestBitrate` (432 s, bitrate 36981, size 1738968). -/
def exampleSignal : Media :=
  { path := "/in/example_signal.aac", size := 1738968, duration := 432000000000,
    bitrate := 36981, initialized := true }

/-- The fixed candidate tiers in bits per second, highest first. -/
def tiers : List Int := [bitrate48k, bitrate24k, bitrate12k]

/-- The bits-per-second value named by a bitrate string of the selector (0 for any
other string). -/
def tierValue (s : String) : Int :=
  if s = str48k then bitrate48k
  else if s = str24k then bitrate24k
  else if s = str12k then bitrate12k
  else 0

/-- A tier qualifies, in the words of the specification: it is strictly below the
source bitrate and its projected size `tier * seconds / 8` is strictly below the cap. -/
def qualifies (tier bitrate seconds sizeCap : Int) : Prop :=
  tier < bitrate ∧ tier * seconds / 8 < sizeCap

/-- A call returned `ErrSizeCapExceeded`: the returned error is such a value, or has
one on its `Unwrap` chain. -/
def returnsSizeCapExceeded (o : Outcome (Media × Option GoError)) : Prop :=
  ∃ med e c s, o = .returned (med, some e) ∧ e.asSizeCapExceeded = some (c, s)

/-- The three kinds of error of errors.go. -/
inductive ErrKind where
  | validation
  | fileOp
  | sizeCapExceeded
  deriving DecidableEq

/-- The kind of an error: the first of the three struct types of errors.go met on
the error itself and then along its `Unwrap` chain (what `errors.As` finds), if
there is one. -/
def GoError.kind : GoError → Option ErrKind
  | .ErrValidation _ => some .validation
  | .ErrFileOp _ => some .fileOp
  | .ErrSizeCapExceeded _ _ => some .sizeCapExceeded
  | .wrapped _ err => err.kind
  | _ => none

/-- The kind of the error that a call of `DownsampleOGG` returned; `none` when it
returned a nil error or did not return. -/
def returnedKind (o : Outcome (Media × Option GoError)) : Option ErrKind :=
  match o with
  | .returned (_, some e) => e.kind
  | _ => none

/-! ## whisper.go and scribe.go -/

def whisperMaxBytes : Int := 25 * 1024 * 1024
def whisperMaxBytesPadding : Int := 100 * 1024

/-- The function `MaxUploadSize`. -/
def MaxUploadSize : Int := whisperMaxBytes - whisperMaxBytesPadding

/-- The struct `Transcript` of whisper.go, as far as the repository reads it: the
text fields.  Its `float64` and slice fields (`Duration`, `Words`, `Segments`) are
only decoded from the response and never read; they are left out. -/
structure Transcript where
  Task : String
  Language : String
  Text : String
  deriving DecidableEq

/-- The Go zero value `var ts Transcript`. -/
def Transcript.zero : Transcript := { Task := "", Language := "", Text := "" }

/-- The struct `Job` of scribe.go. -/
structure Job where
  SourceMedia : Media
  TargetMedia : Media
  Transcript : Transcript
  Err : Option GoError

/-- The job that `ScribeCmd.Run` submits for a source file:
`scribe.Job{SourceMedia: sourceMedia}`. -/
def Job.new (sourceMedia : Media) : Job :=
  { SourceMedia := sourceMedia, TargetMedia := Media.zero, Transcript := Transcript.zero,
    Err := none }

/-- The two output channels of a worker. -/
inductive Output where
  | success
  | failed
  deriving DecidableEq

/-- The config that `DownsampleWorker` passes to `DownsampleOGG`. -/
def downsampleWorkerConfig (workdir : String) : DownsampleOGGConfig :=
  { OutputBasePath := workdir, SizeCap := MaxUploadSize, Strategy := DownsampleStrategyAutoBest }

/-- The rest of the loop body of `DownsampleWorker` once `DownsampleOGG` has returned
`(targetMedia, err)`: the channel it sends on, and the job it sends. -/
def downsampleSend (job : Job) (targetMedia : Media) (err : Option GoError) : Output × Job :=
  match err with
  | some e =>
      (.failed, { job with Err := some (.text ("media transform failed: " ++ e.Error)) })
  | none => (.success, { job with TargetMedia := targetMedia })

/-- The rest of the loop body of `TranscriptionWorker` once `transcribe.Transcribe`
has returned `(transcript, err)`. -/
def transcriptionSend (job : Job) (transcript : Transcript) (err : Option GoError) :
    Output × Job :=
  match err with
  | some e => (.failed, { job with Err := some (.text ("transcribe failed: " ++ e.Error)) })
  | none => (.success, { job with Transcript := transcript })

/-- What a worker has done when its loop has ended or was cut short: the sends it
made, in order, the panic that ended it (if one did), and the state of the world. -/
structure WorkerRun where
  sends : List (Output × Job)
  panic : Option String
  world : World

/-- The function `DownsampleWorker` as a function of the sequence of jobs it receives
from `jobs` (the channel closed after them): for each job one call of `DownsampleOGG`
and one send.  A panic of `DownsampleOGG` is not recovered and ends the worker. -/
def DownsampleWorker (env : Env) (workdir : String) : World → List Job → WorkerRun
  | w, [] => { sends := [], panic := none, world := w }
  | w, job :: rest =>
      match job.SourceMedia.DownsampleOGG env w (downsampleWorkerConfig workdir) with
      | (.panicked msg, w1) => { sends := [], panic := some msg, world := w1 }
      | (.returned (targetMedia, err), w1) =>
          let run := DownsampleWorker env workdir w1 rest
          { run with sends := downsampleSend job targetMedia err :: run.sends }

/-- The function `TranscriptionWorker` as a function of the sequence of jobs it
receives.  `transcribe n path` is what the `n`-th call of `transcribe.Transcribe`
made by this worker returns for the path `path` (a network call: an oracle). -/
def TranscriptionWorker (transcribe : Nat → String → Transcript × Option GoError) :
    Nat → List Job → List (Output × Job)
  | _, [] => []
  | n, job :: rest =>
      let (transcript, err) := transcribe n job.TargetMedia.GetPath
      transcriptionSend job transcript err :: TranscriptionWorker transcribe (n + 1) rest

/-- One send of `DownsampleWorker` as the specification describes it for a received
job: some call of `DownsampleOGG` on the job's source returned; on an error the job
goes to `failed` with `Err` set and nothing else changed, otherwise it goes to
`success` with `TargetMedia` set to the returned descriptor and nothing else
changed. -/
def TransformRouted (env : Env) (workdir : String) (job : Job) (send : Output × Job) : Prop :=
  ∃ w1 w2 targetMedia err,
    job.SourceMedia.DownsampleOGG env w1 (downsampleWorkerConfig workdir) =
      (.returned (targetMedia, err), w2) ∧
    send.2.SourceMedia = job.SourceMedia ∧ send.2.Transcript = job.Transcript ∧
    ((err ≠ none ∧ send.1 = .failed ∧ send.2.Err ≠ none ∧
        send.2.TargetMedia = job.TargetMedia) ∨
      (err = none ∧ send.1 = .success ∧ send.2.TargetMedia = targetMedia ∧
        send.2.Err = job.Err))

/-- One send of `TranscriptionWorker` as the specification describes it: on an error
of `transcribe.Transcribe` the job is sent to `failed` with `Err` set, otherwise to
`success` with `Transcript` set to the returned transcript; nothing else changes. -/
def TranscribeRouted (transcribe : Nat → String → Transcript × Option GoError) (job : Job)
    (send : Output × Job) : Prop :=
  ∃ n transcript err,
    transcribe n job.TargetMedia.GetPath = (transcript, err) ∧
    send.2.SourceMedia = job.SourceMedia ∧ send.2.TargetMedia = job.TargetMedia ∧
    ((err ≠ none ∧ send.1 = .failed ∧ send.2.Err ≠ none ∧
        send.2.Transcript = job.Transcript) ∨
      (err = none ∧ send.1 = .success ∧ send.2.Transcript = transcript ∧
        send.2.Err = job.Err))

/-- Two jobs for the examples: the example source and a `.flac` file. -/
def exampleJobs : List Job :=
  [Job.new exampleSource, Job.new { exampleSource with path := "/in/talk.flac" }]

/-- A transcription service for the examples: the first call succeeds, every later
call fails. -/
def exampleTranscribe (n : Nat) (_ : String) : Transcript × Option GoError :=
  if n = 0 then ({ Task := "transcribe", Language := "en", Text := "hello" }, none)
  else (Transcript.zero, some (.text "request failed with status: 500: "))

/-! ## spiritor.go: the pipeline wired by `ScribeCmd.Run` -/

/-- The two stages of the pipeline. -/
inductive Stage where
  | transform
  | transcribe
  deriving DecidableEq

/-- What a worker goroutine is doing (`DownsampleWorker` and `TranscriptionWorker`
have the same shape).  The number `id` is the position in `files` of the source the
job was submitted for; it is carried along to tell the jobs apart. -/
inductive WorkerState where
  /-- blocked in `for job := range jobs`, waiting for a job or for the close -/
  | receiving
  /-- inside `DownsampleOGG` or `transcribe.Transcribe` for the job it has received -/
  | working (id : Nat) (job : Job)
  /-- blocked in `success <- job` or `failed <- job` -/
  | sending (out : Output) (id : Nat) (job : Job)
  /-- the `range` loop has ended and the function has returned -/
  | exited

/-- A job in the channel `jobResults` or taken from it: the job, the position of its
source in `files`, and the stage and output channel of the worker that sent it. -/
structure Delivery where
  id : Nat
  job : Job
  stage : Stage
  out : Output

/-- A delivered job is terminal: its `Err` is set, or it was sent by a
`TranscriptionWorker` on its success channel (after `job.Transcript = transcript`). -/
def Delivery.terminal (d : Delivery) : Prop :=
  d.job.Err ≠ none ∨ (d.stage = .transcribe ∧ d.out = .success)

/-- The state of the goroutines and channels of `ScribeCmd.Run` from the point where
the channels have been made and the workers started.
* `submitted` is the number of jobs `Run` has sent on `downsampleJobs` (unbuffered);
* `results` is the buffer of `jobResults` (capacity `len(files)`), oldest first;
* `received` is what `Run` has taken from `jobResults`, oldest first;
* `closed` counts the deferred `close` calls `Run` has executed, which run in the
  order `close(jobResults)`, `close(trancriptionJobs)`, `close(downsampleJobs)`;
* `sendOnClosed` records that a goroutine has sent on a closed channel (a panic). -/
structure Pipeline where
  files : List Media
  submitted : Nat
  transformers : List WorkerState
  transcribers : List WorkerState
  results : List Delivery
  received : List Delivery
  closed : Nat
  sendOnClosed : Bool

/-- The state right after `Run` has started `nT` transform and `nX` transcription
workers. -/
def Pipeline.init (files : List Media) (nT nX : Nat) : Pipeline :=
  { files := files, submitted := 0,
    transformers := List.replicate nT .receiving,
    transcribers := List.replicate nX .receiving,
    results := [], received := [], closed := 0, sendOnClosed := false }

/-- One step of one goroutine.  A send on an unbuffered channel is one step together
with the matching receive.  The result of `DownsampleOGG` and of
`transcribe.Transcribe` is left open: any returned value is possible (both calls
return here; the output directory that the workers pass to `DownsampleOGG` is the
one `Run` has just created, and with an existing output directory the call returns,
see `DownsampleWorker_total`).  Every step needs that no goroutine has panicked. -/
inductive Step : Pipeline → Pipeline → Prop
  /-- main: `downsampleJobs <- scribe.Job{SourceMedia: sourceMedia}`, received by a
  transform worker waiting in its `range` -/
  | submit (s : Pipeline) (pre post : List WorkerState) (m : Media) :
      s.sendOnClosed = false → s.files[s.submitted]? = some m →
      s.transformers = pre ++ .receiving :: post →
      Step s { s with
        submitted := s.submitted + 1
        transformers := pre ++ .working s.submitted (Job.new m) :: post }
  /-- transform worker: `DownsampleOGG` returns `(targetMedia, err)` -/
  | transformDone (s : Pipeline) (pre post : List WorkerState) (id : Nat) (job : Job)
      (targetMedia : Media) (err : Option GoError) :
      s.sendOnClosed = false → s.transformers = pre ++ .working id job :: post →
      Step s { s with
        transformers := pre ++ .sending (downsampleSend job targetMedia err).1 id
          (downsampleSend job targetMedia err).2 :: post }
  /-- transform worker: `failed <- job` into the buffer of `jobResults` -/
  | transformFailed (s : Pipeline) (pre post : List WorkerState) (id : Nat) (job : Job) :
      s.sendOnClosed = false → s.transformers = pre ++ .sending .failed id job :: post →
      s.closed = 0 → s.results.length < s.files.length →
      Step s { s with
        transformers := pre ++ .receiving :: post
        results := s.results ++ [{ id := id, job := job, stage := .transform, out := .failed }] }
  /-- transform worker: `failed <- job` with `jobResults` closed -/
  | transformFailedClosed (s : Pipeline) (pre post : List WorkerState) (id : Nat) (job : Job) :
      s.sendOnClosed = false → s.transformers = pre ++ .sending .failed id job :: post →
      1 ≤ s.closed →
      Step s { s with sendOnClosed := true }
  /-- transform worker: `success <- job`, received by a transcription worker waiting
  in its `range` -/
  | handOver (s : Pipeline) (pre post pre2 post2 : List WorkerState) (id : Nat) (job : Job) :
      s.sendOnClosed = false → s.transformers = pre ++ .sending .success id job :: post →
      s.transcribers = pre2 ++ .receiving :: post2 → s.closed < 2 →
      Step s { s with
        transformers := pre ++ .receiving :: post
        transcribers := pre2 ++ .working id job :: post2 }
  /-- transform worker: `success <- job` with `trancriptionJobs` closed -/
  | handOverClosed (s : Pipeline) (pre post : List WorkerState) (id : Nat) (job : Job) :
      s.sendOnClosed = false → s.transformers = pre ++ .sending .success id job :: post →
      2 ≤ s.closed →
      Step s { s with sendOnClosed := true }
  /-- transcription worker: `transcribe.Transcribe` returns `(transcript, err)` -/
  | transcribeDone (s : Pipeline) (pre post : List WorkerState) (id : Nat) (job : Job)
      (transcript : Transcript) (err : Option GoError) :
      s.sendOnClosed = false → s.transcribers = pre ++ .working id job :: post →
      Step s { s with
        transcribers := pre ++ .sending (transcriptionSend job transcript err).1 id
          (transcriptionSend job transcript err).2 :: post }
  /-- transcription worker: `success <- job` or `failed <- job`, both into the buffer
  of `jobResults` -/
  | transcribeSend (s : Pipeline) (pre post : List WorkerState) (out : Output) (id : Nat)
      (job : Job) :
      s.sendOnClosed = false → s.transcribers = pre ++ .sending out id job :: post →
      s.closed = 0 → s.results.length < s.files.length →
      Step s { s with
        transcribers := pre ++ .receiving :: post
        results := s.results ++ [{ id := id, job := job, stage := .transcribe, out := out }] }
  /-- transcription worker: a send with `jobResults` closed -/
  | transcribeSendClosed (s : Pipeline) (pre post : List WorkerState) (out : Output) (id : Nat)
      (job : Job) :
      s.sendOnClosed = false → s.transcribers = pre ++ .sending out id job :: post →
      1 ≤ s.closed →
      Step s { s with sendOnClosed := true }
  /-- main: `job := <-jobResults` in the loop that runs `len(files)` times after all
  jobs have been submitted -/
  | receive (s : Pipeline) (d : Delivery) (rest : List Delivery) :
      s.sendOnClosed = false → s.submitted = s.files.length →
      s.received.length < s.files.length → s.results = d :: rest →
      Step s { s with results := rest, received := s.received ++ [d] }
  /-- main: the next deferred `close`, once the receive loop is done -/
  | close (s : Pipeline) :
      s.sendOnClosed = false → s.submitted = s.files.length →
      s.received.length = s.files.length → s.closed < 3 →
      Step s { s with closed := s.closed + 1 }
  /-- transform worker: its `range` ends because `downsampleJobs` is closed -/
  | transformExit (s : Pipeline) (pre post : List WorkerState) :
      s.sendOnClosed = false → s.transformers = pre ++ .receiving :: post → 3 ≤ s.closed →
      Step s { s with transformers := pre ++ .exited :: post }
  /-- transcription worker: its `range` ends because `trancriptionJobs` is closed -/
  | transcribeExit (s : Pipeline) (pre post : List WorkerState) :
      s.sendOnClosed = false → s.transcribers = pre ++ .receiving :: post → 2 ≤ s.closed →
      Step s { s with transcribers := pre ++ .exited :: post }

/-- The states that an execution from `s0` can reach. -/
inductive Reachable (s0 : Pipeline) : Pipeline → Prop
  | start : Reachable s0 s0
  | step (s t : Pipeline) : Reachable s0 s → Step s t → Reachable s0 t

/-- The positions (in `files`) of the jobs a worker holds. -/
def WorkerState.ids : WorkerState → List Nat
  | .working id _ => [id]
  | .sending _ id _ => [id]
  | _ => []

/-- The positions of the jobs held by the workers of a stage. -/
def heldIds : List WorkerState → List Nat
  | [] => []
  | w :: ws => w.ids ++ heldIds ws

/-- An upper bound on the steps a transform worker can still take on its own account
and on account of the job it holds. -/
def WorkerState.weightT : WorkerState → Nat
  | .receiving => 1
  | .working _ _ => 6
  | .sending .success _ _ => 5
  | .sending .failed _ _ => 3
  | .exited => 0

/-- The same bound for a transcription worker. -/
def WorkerState.weightX : WorkerState → Nat
  | .receiving => 1
  | .working _ _ => 4
  | .sending _ _ _ => 3
  | .exited => 0

/-- The sum of the weights of the workers of a stage. -/
def poolWeight (f : WorkerState → Nat) : List WorkerState → Nat
  | [] => 0
  | w :: ws => f w + poolWeight f ws

/-- An upper bound on the number of steps that remain from a state: every step
lowers it. -/
def Pipeline.measure (s : Pipeline) : Nat :=
  6 * (s.files.length - s.submitted) + poolWeight WorkerState.weightT s.transformers +
    poolWeight WorkerState.weightX s.transcribers + s.results.length + (3 - s.closed) +
    (if s.sendOnClosed then 0 else 1)

/-- What holds of the job a worker has in hand: its source is the file submitted at
position `id`, and a job about to be sent on `failed` has its `Err` set. -/
def WorkerState.ok (files : List Media) : WorkerState → Prop
  | .working id job => files[id]? = some job.SourceMedia
  | .sending out id job => files[id]? = some job.SourceMedia ∧ (out = .failed → job.Err ≠ none)
  | _ => True

/-- The invariant of the pipeline started on `files` with `nT` and `nX` workers. -/
structure Pipeline.Inv (files : List Media) (nT nX : Nat) (s : Pipeline) : Prop where
  files_eq : s.files = files
  nT_eq : s.transformers.length = nT
  nX_eq : s.transcribers.length = nX
  submitted_le : s.submitted ≤ s.files.length
  closed_le : s.closed ≤ 3
  count : ∀ id, (heldIds s.transformers).count id + (heldIds s.transcribers).count id +
    (s.results.map Delivery.id).count id + (s.received.map Delivery.id).count id =
      if id < s.submitted then 1 else 0
  total : (heldIds s.transformers).length + (heldIds s.transcribers).length +
    s.results.length + s.received.length = s.submitted
  closed_pos : 0 < s.closed → s.submitted = s.files.length ∧ s.received.length = s.files.length
  no_panic : s.sendOnClosed = false
  exitedT : WorkerState.exited ∈ s.transformers → 3 ≤ s.closed
  exitedX : WorkerState.exited ∈ s.transcribers → 2 ≤ s.closed
  okT : ∀ w ∈ s.transformers, w.ok s.files
  okX : ∀ w ∈ s.transcribers, w.ok s.files
  okD : ∀ d ∈ s.results ++ s.received, s.files[d.id]? = some d.job.SourceMedia ∧ d.terminal

/-- The job of the example source after a failed transform. -/
def exampleFailedJob : Job :=
  (downsampleSend (Job.new exampleSource) Media.zero
    (some (.ErrSizeCapExceeded MaxUploadSize 30000000))).2

/-- A state of the pipeline on the one file `exampleSource` with one worker per
stage: the job has failed in the Transform stage and its result has been received,
`Run` has executed `close(jobResults)` and `close(trancriptionJobs)`, and the
transform worker is still blocked in its `range` over `downsampleJobs`. -/
def closedEarlyState : Pipeline :=
  { files := [exampleSource], submitted := 1,
    transformers := [.receiving], transcribers := [.receiving],
    results := [],
    received := [{ id := 0, job := exampleFailedJob, stage := .transform, out := .failed }],
    closed := 2, sendOnClosed := false }

/-- The job of the example source after both stages have succeeded. -/
def exampleTranscribedJob : Job :=
  (transcriptionSend
    (downsampleSend (Job.new exampleSource)
      (Media.mk "/out/example_zoom.MP3.ogg" 7992132 2705000000000 0 true) none).2
    { Task := "transcribe", Language := "en", Text := "hello" } none).2

/-- A state of the pipeline on the one file `exampleSource` with one worker per
stage in which the job has passed both stages and its result has been received. -/
def deliveredState : Pipeline :=
  { files := [exampleSource], submitted := 1,
    transformers := [.receiving], transcribers := [.receiving],
    results := [],
    received :=
      [{ id := 0, job := exampleTranscribedJob, stage := .transcribe, out := .success }],
    closed := 0, sendOnClosed := false }

/-! # Theorems -/

theorem roundNearestEven_le (n d m : Nat) (hd : 0 < d) (h : n ≤ m * d) :
    roundNearestEven n d ≤ m := by
  have hq : n / d ≤ m := Nat.div_le_of_le_mul (by rw [Nat.mul_comm d]; exact h)
  unfold roundNearestEven
  simp only
  rcases Nat.lt_or_ge (n / d) m with hlt | hge
  · split_ifs <;> omega
  · have hqm : n / d = m := Nat.le_antisymm hq hge
    have hdm := Nat.div_add_mod n d
    rw [hqm] at hdm
    have hr : n % d = 0 := by
      have : d * m = m * d := Nat.mul_comm d m
      omega
    rw [hr, hqm]
    simp [hd]

theorem bitLengthAux_le (fuel : Nat) : ∀ n k : Nat, n < 2 ^ k → bitLengthAux fuel n ≤ k := by
  induction fuel with
  | zero => intro n k _; simp [bitLengthAux]
  | succ f ih =>
    intro n k h
    unfold bitLengthAux
    split_ifs with h0
    · exact Nat.zero_le k
    · cases k with
      | zero => simp at h; exact absurd h h0
      | succ k =>
        have : n / 2 < 2 ^ k := by
          rw [Nat.div_lt_iff_lt_mul (by norm_num)]
          rw [pow_succ] at h
          exact h
        have := ih (n / 2) k this
        omega

theorem bitLength_le (n k : Nat) (h : n < 2 ^ k) : bitLength n ≤ k :=
  bitLengthAux_le n n k h

theorem bitLengthAux_spec (fuel : Nat) :
    ∀ n : Nat, n ≤ fuel → n ≠ 0 →
      2 ^ (bitLengthAux fuel n - 1) ≤ n ∧ n < 2 ^ bitLengthAux fuel n := by
  induction fuel with
  | zero => intro n h h0; omega
  | succ f ih =>
    intro n h h0
    unfold bitLengthAux
    simp only [h0, if_false, Nat.add_sub_cancel]
    by_cases h2 : n / 2 = 0
    · have h1 : n = 1 := by omega
      subst h1
      cases f <;> simp [bitLengthAux]
    · obtain ⟨hlo, hhi⟩ := ih (n / 2) (by omega) h2
      have hb : bitLengthAux f (n / 2) ≠ 0 := by
        intro hz
        rw [hz] at hhi
        simp at hhi
        exact h2 hhi
      obtain ⟨b, hb1⟩ : ∃ b, bitLengthAux f (n / 2) = b + 1 := ⟨_, (Nat.succ_pred hb).symm⟩
      rw [hb1] at hlo hhi ⊢
      simp only [Nat.add_sub_cancel] at hlo
      rw [pow_succ] at hhi ⊢
      rw [pow_succ]
      constructor <;> omega

/-- The value `bitLength n` is the number of binary digits of a positive `n`. -/
theorem bitLength_spec (n : Nat) (h0 : n ≠ 0) :
    2 ^ (bitLength n - 1) ≤ n ∧ n < 2 ^ bitLength n :=
  bitLengthAux_spec n n (Nat.le_refl n) h0

theorem roundFloat64_den_pos (p q : Nat) : 0 < (roundFloat64 p q).2 := by
  simp [roundFloat64]

theorem roundFloat64_le (p q m : Nat) (hq : 0 < q) (hm : m < 2 ^ 53) (h : p ≤ m * q) :
    (roundFloat64 p q).1 ≤ m * (roundFloat64 p q).2 := by
  unfold roundFloat64
  simp only
  generalize hs : 64 + bitLength q = s
  generalize hj : bitLength (p * 2 ^ s / q) - 53 = j
  have hx : p * 2 ^ s ≤ (m * 2 ^ s) * q := by
    calc p * 2 ^ s ≤ (m * q) * 2 ^ s := Nat.mul_le_mul_right _ h
      _ = (m * 2 ^ s) * q := by ring
  have hxq : p * 2 ^ s / q ≤ m * 2 ^ s :=
    Nat.div_le_of_le_mul (by rw [Nat.mul_comm q]; exact hx)
  have hlt : p * 2 ^ s / q < 2 ^ (53 + s) := by
    calc p * 2 ^ s / q ≤ m * 2 ^ s := hxq
      _ < 2 ^ 53 * 2 ^ s := Nat.mul_lt_mul_of_pos_right hm (Nat.two_pow_pos _)
      _ = 2 ^ (53 + s) := by rw [← pow_add]
  have hjs : j ≤ s := by
    have := bitLength_le _ _ hlt
    omega
  obtain ⟨t, rfl⟩ : ∃ t, s = j + t := ⟨s - j, by omega⟩
  have hr : roundNearestEven (p * 2 ^ (j + t)) (q * 2 ^ j) ≤ m * 2 ^ t := by
    apply roundNearestEven_le
    · exact Nat.mul_pos hq (Nat.two_pow_pos _)
    · calc p * 2 ^ (j + t) ≤ (m * 2 ^ (j + t)) * q := hx
        _ = m * 2 ^ t * (q * 2 ^ j) := by rw [pow_add]; ring
  calc roundNearestEven (p * 2 ^ (j + t)) (q * 2 ^ j) * 2 ^ j
      ≤ (m * 2 ^ t) * 2 ^ j := Nat.mul_le_mul_right _ hr
    _ = m * 2 ^ (j + t) := by rw [pow_add]; ring

theorem roundedSecondsAbs_le (n : Nat) (hn : n / 1000000000 + 1 < 2 ^ 53) :
    roundedSecondsAbs n ≤ n / 1000000000 + 1 := by
  unfold roundedSecondsAbs
  simp only
  generalize hsec : n / 1000000000 = sec at hn ⊢
  have hns : n % 1000000000 < 1000000000 := Nat.mod_lt _ (by norm_num)
  generalize n % 1000000000 = nsec at hns ⊢
  have hf := roundFloat64_le nsec 1000000000 1 (by norm_num) (by norm_num) (by omega)
  have hfpos := roundFloat64_den_pos nsec 1000000000
  generalize roundFloat64 nsec 1000000000 = frac at hf hfpos ⊢
  have hsum := roundFloat64_le (sec * frac.2 + frac.1) frac.2 (sec + 1) hfpos hn
    (by rw [Nat.add_mul]; omega)
  have hspos := roundFloat64_den_pos (sec * frac.2 + frac.1) frac.2
  generalize roundFloat64 (sec * frac.2 + frac.1) frac.2 = sum at hsum hspos ⊢
  have : (2 * sum.1 + sum.2) / (2 * sum.2) < sec + 2 := by
    rw [Nat.div_lt_iff_lt_mul (by omega)]
    have e : (sec + 2) * (2 * sum.2) = 2 * ((sec + 1) * sum.2) + 2 * sum.2 := by ring
    rw [e]
    omega
  omega

theorem roundedSeconds_bound (d : Int) (hd : isInt64 d) :
    -9223372037 ≤ roundedSeconds d ∧ roundedSeconds d ≤ 9223372037 := by
  have habs : d.natAbs ≤ 2 ^ 63 := by
    unfold isInt64 at hd
    omega
  have hdiv : d.natAbs / 1000000000 ≤ 9223372036 := by
    have : d.natAbs / 1000000000 ≤ 2 ^ 63 / 1000000000 := Nat.div_le_div_right habs
    norm_num at this ⊢
    exact this
  have hb := roundedSecondsAbs_le d.natAbs (by norm_num; omega)
  unfold roundedSeconds
  split_ifs <;> omega

theorem wrapInt64_of_isInt64 (x : Int) (h : isInt64 x) : wrapInt64 x = x := by
  unfold isInt64 at h
  unfold wrapInt64
  norm_num at h ⊢
  omega

theorem projected48k (d : Int) (hd : isInt64 d) :
    (wrapInt64 (bitrate48k * roundedSeconds d)).tdiv 8 = 6000 * roundedSeconds d := by
  have hb := roundedSeconds_bound d hd
  have hw : wrapInt64 (bitrate48k * roundedSeconds d) = 8 * (6000 * roundedSeconds d) := by
    rw [wrapInt64_of_isInt64]
    · unfold bitrate48k; ring
    · unfold isInt64 bitrate48k; norm_num; omega
  rw [hw, Int.mul_tdiv_cancel_left _ (by norm_num)]

theorem projected24k (d : Int) (hd : isInt64 d) :
    (wrapInt64 (bitrate24k * roundedSeconds d)).tdiv 8 = 3000 * roundedSeconds d := by
  have hb := roundedSeconds_bound d hd
  have hw : wrapInt64 (bitrate24k * roundedSeconds d) = 8 * (3000 * roundedSeconds d) := by
    rw [wrapInt64_of_isInt64]
    · unfold bitrate24k; ring
    · unfold isInt64 bitrate24k; norm_num; omega
  rw [hw, Int.mul_tdiv_cancel_left _ (by norm_num)]

theorem calculateBestBitrate_unfold (m : Media) (c : Int) :
    calculateBestBitrate m c =
      if m.bitrate = 0 ∨ roundedSeconds m.duration = 0 then str12k
      else if m.bitrate > bitrate48k ∧
          (wrapInt64 (bitrate48k * roundedSeconds m.duration)).tdiv 8 < c then str48k
      else if m.bitrate > bitrate24k ∧
          (wrapInt64 (bitrate24k * roundedSeconds m.duration)).tdiv 8 < c then str24k
      else str12k := by
  unfold calculateBestBitrate
  simp only [Id.run, Id.pure_eq, Id.bind_eq, pure, bind]
  split_ifs <;> simp_all

theorem tierValue_str48k : tierValue str48k = 48000 := by decide
theorem tierValue_str24k : tierValue str24k = 24000 := by decide
theorem tierValue_str12k : tierValue str12k = 12000 := by decide

/-- C1. For a source bitrate above 0 and a rounded duration above 0 seconds,
`calculateBestBitrate` returns the highest tier of 48000, 24000, 12000 that
qualifies (tier below the source bitrate, projected size `tier * seconds / 8`
strictly below the cap) when some tier qualifies, and "12k" when none does; the
comparison with the cap is strict (bitrate 50000, 100 s, cap 600000 gives "24k"
although the projected size of 48k equals the cap). -/
theorem calculateBestBitrate_highest_qualifying (m : Media) (c : Int)
    (hd : isInt64 m.duration) (hb : 0 < m.bitrate) (hs : 0 < roundedSeconds m.duration) :
    ((∃ T ∈ tiers, qualifies T m.bitrate (roundedSeconds m.duration) c) →
      tierValue (calculateBestBitrate m c) ∈ tiers ∧
      qualifies (tierValue (calculateBestBitrate m c)) m.bitrate (roundedSeconds m.duration) c ∧
      ∀ T ∈ tiers, qualifies T m.bitrate (roundedSeconds m.duration) c →
        T ≤ tierValue (calculateBestBitrate m c)) ∧
    ((¬ ∃ T ∈ tiers, qualifies T m.bitrate (roundedSeconds m.duration) c) →
      calculateBestBitrate m c = str12k) ∧
    calculateBestBitrate
      { path := "/in/a.wav", size := 625000, duration := 100000000000, bitrate := 50000,
        initialized := true } 600000 = str24k := by
  refine ⟨?_, ?_, by decide⟩
  · rw [calculateBestBitrate_unfold, projected48k _ hd, projected24k _ hd]
    simp only [tiers, qualifies, List.mem_cons, List.mem_singleton, exists_eq_or_imp,
      exists_eq_left, forall_eq_or_imp, forall_eq, bitrate48k, bitrate24k, bitrate12k,
      List.not_mem_nil, or_false, exists_false, false_and, false_implies, implies_true, and_true]
    intro h
    split_ifs with h1 h2 h3
    · omega
    · simp only [tierValue_str48k]
      refine ⟨by norm_num, by omega, ?_, ?_, ?_⟩ <;> intro _ <;> omega
    · simp only [tierValue_str24k]
      refine ⟨by norm_num, by omega, ?_, ?_, ?_⟩ <;> intro _ <;> omega
    · simp only [tierValue_str12k]
      refine ⟨by norm_num, by omega, ?_, ?_, ?_⟩ <;> intro _ <;> omega
  · rw [calculateBestBitrate_unfold, projected48k _ hd, projected24k _ hd]
    simp only [tiers, qualifies, List.mem_cons, List.mem_singleton, exists_eq_or_imp,
      exists_eq_left, bitrate48k, bitrate24k, bitrate12k,
      List.not_mem_nil, or_false, exists_false, false_and]
    intro h
    split_ifs with h1 h2 h3
    · rfl
    · omega
    · omega
    · rfl

/-- Witness of C1 at the example of the specification: bitrate 36981, 432 s, cap
2000000 bytes; the selected tier is "24k". -/
theorem calculateBestBitrate_highest_qualifying_witness :
    (isInt64 exampleSignal.duration ∧ 0 < exampleSignal.bitrate ∧
      0 < roundedSeconds exampleSignal.duration) ∧
    (roundedSeconds exampleSignal.duration = 432 ∧
      calculateBestBitrate exampleSignal 2000000 = str24k) ∧
    (((∃ T ∈ tiers, qualifies T exampleSignal.bitrate
          (roundedSeconds exampleSignal.duration) 2000000) →
      tierValue (calculateBestBitrate exampleSignal 2000000) ∈ tiers ∧
      qualifies (tierValue (calculateBestBitrate exampleSignal 2000000)) exampleSignal.bitrate
        (roundedSeconds exampleSignal.duration) 2000000 ∧
      ∀ T ∈ tiers, qualifies T exampleSignal.bitrate
          (roundedSeconds exampleSignal.duration) 2000000 →
        T ≤ tierValue (calculateBestBitrate exampleSignal 2000000)) ∧
    ((¬ ∃ T ∈ tiers, qualifies T exampleSignal.bitrate
          (roundedSeconds exampleSignal.duration) 2000000) →
      calculateBestBitrate exampleSignal 2000000 = str12k) ∧
    calculateBestBitrate
      { path := "/in/a.wav", size := 625000, duration := 100000000000, bitrate := 50000,
        initialized := true } 600000 = str24k) :=
  ⟨⟨by decide, by decide, by decide⟩, ⟨by decide, by decide⟩,
    calculateBestBitrate_highest_qualifying exampleSignal 2000000
      (by decide) (by decide) (by decide)⟩

/-- C2. For a source of 8000 bps (10 s, cap 1000000 bytes) the selector returns "12k":
neither guard `bitrate > tier` fires and the default return runs, so the tier returned
(12000 bps) is above the source bitrate, an upsample, against the comments of
`DownsampleStrategyAutoBest` ("without upsampling") and of the checking order
("prevents accidental upsampling"). -/
theorem calculateBestBitrate_upsamples_low_source :
    calculateBestBitrate
        { path := "/in/low.mp3", size := 10000, duration := 10000000000, bitrate := 8000,
          initialized := true } 1000000 = str12k ∧
      ¬ tierValue (calculateBestBitrate
        { path := "/in/low.mp3", size := 10000, duration := 10000000000, bitrate := 8000,
          initialized := true } 1000000) < 8000 := by
  decide

/-- The extent of the upsampling: the returned tier is strictly below the source
bitrate exactly when the source bitrate exceeds 12000; every other source gets the
lowest tier "12k". -/
theorem calculateBestBitrate_below_source_iff (m : Media) (c : Int) :
    (tierValue (calculateBestBitrate m c) < m.bitrate ↔ bitrate12k < m.bitrate) ∧
    (bitrate12k < m.bitrate ∨ calculateBestBitrate m c = str12k) := by
  rw [calculateBestBitrate_unfold]
  simp only [bitrate48k, bitrate24k, bitrate12k]
  split_ifs with h1 h2 h3
  · simp [tierValue_str12k]
  · simp only [tierValue_str48k]; exact ⟨by omega, Or.inl (by omega)⟩
  · simp only [tierValue_str24k]; exact ⟨by omega, Or.inl (by omega)⟩
  · simp [tierValue_str12k]

/-- C3. A descriptor whose bitrate is 0 or whose duration is 0 gets the lowest tier
"12k", whatever the size cap. -/
theorem calculateBestBitrate_unknown (m : Media) (c : Int)
    (h : m.bitrate = 0 ∨ m.duration = 0) : calculateBestBitrate m c = str12k := by
  rw [calculateBestBitrate_unfold]
  have h0 : roundedSeconds 0 = 0 := by decide
  rcases h with h | h
  · simp [h]
  · simp [h, h0]

/-- Witness of C3: unknown bitrate with a cap so large that every tier would fit;
the same source under a negative cap; and a zero duration with a zero cap. -/
theorem calculateBestBitrate_unknown_witness :
    (({ exampleSignal with bitrate := 0 } : Media).bitrate = 0 ∨
      ({ exampleSignal with bitrate := 0 } : Media).duration = 0) ∧
    calculateBestBitrate { exampleSignal with bitrate := 0 } 1000000000000 = str12k ∧
    calculateBestBitrate { exampleSignal with bitrate := 0 } (-1) = str12k ∧
    calculateBestBitrate { exampleSignal with duration := 0 } 0 = str12k :=
  ⟨by decide,
    calculateBestBitrate_unknown { exampleSignal with bitrate := 0 } 1000000000000 (by decide),
    by decide, by decide⟩

/-! ## The extension check and validation -/

theorem filepathExt_upper (stem : String) (a b c : Char)
    (ha : a ≠ '/' ∧ a ≠ '.') (hb : b ≠ '/' ∧ b ≠ '.') (hc : c ≠ '/' ∧ c ≠ '.') :
    filepathExt (stem ++ String.mk ['.', a, b, c]) = String.mk ['.', a, b, c] := by
  unfold filepathExt
  simp [String.data_append, filepathExtAux, ha.1, ha.2, hb.1, hb.2, hc.1, hc.2]

theorem GetExt_upper (m : Media) (stem : String) (a b c : Char)
    (ha : a ≠ '/' ∧ a ≠ '.') (hb : b ≠ '/' ∧ b ≠ '.') (hc : c ≠ '/' ∧ c ≠ '.') :
    Media.GetExt { m with path := stem ++ String.mk ['.', a, b, c] } =
      String.mk [a.toLower, b.toLower, c.toLower] := by
  unfold Media.GetExt
  simp only [filepathExt_upper stem a b c ha hb hc]
  simp [trimLeftDots, stringsToLower, ha.2]

/-- C7. With a config that passes `Validate`, a source that is uninitialized, or
whose extension (final extension of the path, dot removed, lower-cased) is not mp3,
aac or wav, makes `DownsampleOGG` return an `ErrValidation` with the zero descriptor
and leaves the world as it was: no workspace created, no program started.  A path
ending in `.MP3`, `.AAC` or `.WAV` passes the extension check. -/
theorem DownsampleOGG_rejects_source_without_effect (env : Env) (w : World) (m : Media)
    (cfg : DownsampleOGGConfig) (hcfg : cfg.Validate w.fs = .returned none)
    (hsrc : m.initialized = false ∨ m.GetExt ∉ downsampleOGGExt) :
    (∃ e, (m.DownsampleOGG env w cfg).1 = .returned (Media.zero, some (.ErrValidation e))) ∧
    (m.DownsampleOGG env w cfg).2.fs = w.fs ∧
    (m.DownsampleOGG env w cfg).2.log = w.log ∧
    (∀ stem : String,
      ExtAllowedDownsampleOGG (Media.GetExt { m with path := stem ++ ".MP3" }) = true ∧
      ExtAllowedDownsampleOGG (Media.GetExt { m with path := stem ++ ".AAC" }) = true ∧
      ExtAllowedDownsampleOGG (Media.GetExt { m with path := stem ++ ".WAV" }) = true) := by
  refine ⟨?_, ?_, ?_, ?_⟩
  · unfold Media.DownsampleOGG
    by_cases hi : m.initialized = true
    · have hext : ExtAllowedDownsampleOGG m.GetExt = false := by
        rcases hsrc with h | h
        · rw [hi] at h; exact absurd h (by decide)
        · simp [ExtAllowedDownsampleOGG, h]
      simp [hi, hcfg, hext]
    · simp [hi]
  · unfold Media.DownsampleOGG
    by_cases hi : m.initialized = true
    · have hext : ExtAllowedDownsampleOGG m.GetExt = false := by
        rcases hsrc with h | h
        · rw [hi] at h; exact absurd h (by decide)
        · simp [ExtAllowedDownsampleOGG, h]
      simp [hi, hcfg, hext]
    · simp [hi]
  · unfold Media.DownsampleOGG
    by_cases hi : m.initialized = true
    · have hext : ExtAllowedDownsampleOGG m.GetExt = false := by
        rcases hsrc with h | h
        · rw [hi] at h; exact absurd h (by decide)
        · simp [ExtAllowedDownsampleOGG, h]
      simp [hi, hcfg, hext]
    · simp [hi]
  · intro stem
    have e1 : (".MP3" : String) = String.mk ['.', 'M', 'P', '3'] := rfl
    have e2 : (".AAC" : String) = String.mk ['.', 'A', 'A', 'C'] := rfl
    have e3 : (".WAV" : String) = String.mk ['.', 'W', 'A', 'V'] := rfl
    rw [e1, e2, e3]
    rw [GetExt_upper m stem _ _ _ (by decide) (by decide) (by decide),
      GetExt_upper m stem _ _ _ (by decide) (by decide) (by decide),
      GetExt_upper m stem _ _ _ (by decide) (by decide) (by decide)]
    decide

/-- Witness of C7: the example source with the extension `.flac`, and the example
source uninitialized, against the valid example configuration. -/
theorem DownsampleOGG_rejects_source_without_effect_witness :
    (exampleConfig.Validate exampleWorld.fs = .returned none ∧
      (({ exampleSource with path := "/in/talk.flac" } : Media).initialized = false ∨
        Media.GetExt { exampleSource with path := "/in/talk.flac" } ∉ downsampleOGGExt)) ∧
    ((∃ e, (Media.DownsampleOGG (exampleEnv 7992132 "") exampleWorld
        { exampleSource with path := "/in/talk.flac" } exampleConfig).1 =
        .returned (Media.zero, some (.ErrValidation e))) ∧
    (Media.DownsampleOGG (exampleEnv 7992132 "") exampleWorld
        { exampleSource with path := "/in/talk.flac" } exampleConfig).2.fs = exampleWorld.fs ∧
    (Media.DownsampleOGG (exampleEnv 7992132 "") exampleWorld
        { exampleSource with path := "/in/talk.flac" } exampleConfig).2.log = exampleWorld.log ∧
    (∀ stem : String,
      ExtAllowedDownsampleOGG (Media.GetExt
        { ({ exampleSource with path := "/in/talk.flac" } : Media) with
          path := stem ++ ".MP3" }) = true ∧
      ExtAllowedDownsampleOGG (Media.GetExt
        { ({ exampleSource with path := "/in/talk.flac" } : Media) with
          path := stem ++ ".AAC" }) = true ∧
      ExtAllowedDownsampleOGG (Media.GetExt
        { ({ exampleSource with path := "/in/talk.flac" } : Media) with
          path := stem ++ ".WAV" }) = true)) :=
  ⟨⟨by rfl, Or.inr (by decide)⟩,
    DownsampleOGG_rejects_source_without_effect (exampleEnv 7992132 "") exampleWorld
      { exampleSource with path := "/in/talk.flac" } exampleConfig (by rfl)
      (Or.inr (by decide))⟩

theorem Validate_panics_of_missing (fs : FS) (cfg : DownsampleOGGConfig)
    (h : fs cfg.OutputBasePath = none) : cfg.Validate fs = .panicked nilDereference := by
  unfold DownsampleOGGConfig.Validate osStat
  simp [h]

/-- C8, evaluated at the failing input.  For a config whose `OutputBasePath` does not
exist (with `SizeCap` 0 and an unknown strategy) `Validate` does not return: the call
`basePathInfo.IsDir()` on the nil `FileInfo` panics, so no joined error reporting the
three failures is produced; and `DownsampleOGG` called with that config on an
initialized source panics as well.  (When the path exists the failures are collected:
an existing file that is not a directory, `SizeCap` 0 and an unknown strategy give
one joined error with the three messages.) -/
theorem Validate_panics_on_missing_output_path :
    DownsampleOGGConfig.Validate (fun _ => none)
        { OutputBasePath := "/does/not/exist", SizeCap := 0, Strategy := "unknown" } =
      .panicked nilDereference ∧
    DownsampleOGGConfig.Validate exampleFS
        { OutputBasePath := "/does/not/exist", SizeCap := 0, Strategy := "unknown" } =
      .panicked nilDereference ∧
    (Media.DownsampleOGG (exampleEnv 7992132 "") exampleWorld exampleSource
        { OutputBasePath := "/does/not/exist", SizeCap := 0, Strategy := "unknown" }).1 =
      .panicked nilDereference ∧
    DownsampleOGGConfig.Validate exampleFS
        { OutputBasePath := "/in/example_zoom.MP3", SizeCap := 0, Strategy := "unknown" } =
      .returned (some (.joined
        [.text "invalid OutputBasePath [/in/example_zoom.MP3]: not a directory",
          .text "invalid SizeCap [0]: must be greater than 0",
          .text "invalid Strategy [unknown]: not recognized"])) :=
  ⟨by rfl, by rfl, by rfl, by rfl⟩

/-- C9, evaluated at the failing input.  With the existing directory `/out` and the
`auto_best` strategy a `SizeCap` of -1 passes `Validate` (only `SizeCap == 0` is
rejected), and `DownsampleOGG` goes on to create the workspace and start `ffmpeg`. -/
theorem Validate_accepts_negative_size_cap :
    DownsampleOGGConfig.Validate exampleFS
        { OutputBasePath := "/out", SizeCap := -1, Strategy := DownsampleStrategyAutoBest } =
      .returned none ∧
    (Media.DownsampleOGG (exampleEnv 7992132 "") exampleWorld exampleSource
        { OutputBasePath := "/out", SizeCap := -1,
          Strategy := DownsampleStrategyAutoBest }).2.log =
      [Event.mkdirTemp "/tmp/spiritor123",
        Event.exec "ffmpeg" ["-i", "/in/example_zoom.MP3", "-vn", "-map_metadata", "-1", "-ac",
          "1", "-c:a", "libopus", "-b:a", "12k", "-application", "voip", "-threads", "4",
          "/tmp/spiritor123/example_zoom.MP3.ogg"],
        Event.removeAll "/tmp/spiritor123"] ∧
    (Media.DownsampleOGG (exampleEnv 7992132 "") exampleWorld exampleSource
        { OutputBasePath := "/out", SizeCap := -1,
          Strategy := DownsampleStrategyAutoBest }).1 =
      .returned
        (Media.mk "/tmp/spiritor123/example_zoom.MP3.ogg" 7992132 2705000000000 0 true,
          some (.ErrSizeCapExceeded (-1) 7992132)) :=
  ⟨by rfl, by decide, by rfl⟩

/-- C10, at the failing input.  When `ffprobe` reports `N/A`, `ProbeBitrate` returns
`(0, nil)` whatever `strconv.Atoi` would say, but `ProbeDuration` has no such check:
it hands `N/As` to `time.ParseDuration` and returns the error of that call (Go's
`time.ParseDuration` rejects `N/As`, a duration must start with a digit or a dot). -/
theorem ProbeDuration_errors_on_not_available (env : Env) (fs : FS) (filePath msg : String)
    (d : Int)
    (hbit : env.ffprobe fs (probeBitrateArgs filePath) = { output := "N/A", err := none })
    (hdur : env.ffprobe fs (probeDurationArgs filePath) = { output := "N/A", err := none })
    (hparse : env.timeParseDuration "N/As" = (d, some msg)) :
    ProbeBitrate env fs filePath = (0, none) ∧
    ProbeDuration env fs filePath =
      (d, some (.text ("could not covert [N/A]s to duration: " ++ msg))) := by
  constructor
  · unfold ProbeBitrate
    simp [hbit]
  · unfold ProbeDuration
    simp only [hdur]
    have h1 : ("N/A" : String) ++ "s" = "N/As" := by decide
    have h2 : ("could not covert [" : String) ++ "N/A" ++ "]s to duration: " =
        "could not covert [N/A]s to duration: " := by decide
    rw [h1, hparse]
    simp only [h2]

/-- Witness of C10 at the failing input: an `ffprobe` that reports `N/A` for every
entry, with the whole-seconds duration reader. -/
theorem ProbeDuration_errors_on_not_available_witness :
    (notAvailableEnv.ffprobe exampleFS (probeBitrateArgs "/in/example_zoom.MP3") =
        { output := "N/A", err := none } ∧
      notAvailableEnv.ffprobe exampleFS (probeDurationArgs "/in/example_zoom.MP3") =
        { output := "N/A", err := none } ∧
      notAvailableEnv.timeParseDuration "N/As" = (0, some "time: invalid duration \"N/As\"")) ∧
    (ProbeBitrate notAvailableEnv exampleFS "/in/example_zoom.MP3" = (0, none) ∧
      ProbeDuration notAvailableEnv exampleFS "/in/example_zoom.MP3" =
        (0, some (.text ("could not covert [N/A]s to duration: " ++
          "time: invalid duration \"N/As\"")))) :=
  ⟨⟨rfl, rfl, by decide⟩,
    ProbeDuration_errors_on_not_available notAvailableEnv exampleFS "/in/example_zoom.MP3"
      "time: invalid duration \"N/As\"" 0 rfl rfl (by decide)⟩

/-! ## The transform protocol -/

/-- The state in which the part of `DownsampleOGG` below the `defer` starts: the
workspace `d` has been created. -/
theorem osMkdirTemp_ok (env : Env) (w : World) (d : String)
    (h : env.mkdirTemp w.fs = (d, none)) :
    osMkdirTemp env w =
      (d, none, { fs := w.fs.write d { isDir := true, size := 0 },
                  log := w.log ++ [Event.mkdirTemp d] }) := by
  unfold osMkdirTemp
  rw [h]

theorem osMkdirTemp_error (env : Env) (w : World) (d err : String)
    (h : env.mkdirTemp w.fs = (d, some err)) :
    osMkdirTemp env w = ("", some err, w) := by
  unfold osMkdirTemp
  rw [h]

theorem DownsampleOGG_in_workDir (env : Env) (w : World) (m : Media) (cfg : DownsampleOGGConfig)
    (d : String) (hinit : m.initialized = true) (hval : cfg.Validate w.fs = .returned none)
    (hext : ExtAllowedDownsampleOGG m.GetExt = true) (hmk : env.mkdirTemp w.fs = (d, none)) :
    m.DownsampleOGG env w cfg =
      (.returned (downsampleInWorkDir env
          { fs := w.fs.write d { isDir := true, size := 0 },
            log := w.log ++ [Event.mkdirTemp d] } m cfg d).1,
        osRemoveAll (downsampleInWorkDir env
          { fs := w.fs.write d { isDir := true, size := 0 },
            log := w.log ++ [Event.mkdirTemp d] } m cfg d).2 d) := by
  unfold Media.DownsampleOGG
  simp [hinit, hval, hext, osMkdirTemp_ok env w d hmk]

/-- Every way in which `DownsampleOGG` ends without having created a workspace
leaves the world as it was. -/
theorem DownsampleOGG_world_cases (env : Env) (w : World) (m : Media) (cfg : DownsampleOGGConfig) :
    (m.DownsampleOGG env w cfg).2 = w ∨
    ∃ d, m.initialized = true ∧ cfg.Validate w.fs = .returned none ∧
      ExtAllowedDownsampleOGG m.GetExt = true ∧ env.mkdirTemp w.fs = (d, none) := by
  by_cases hinit : m.initialized = true
  · rcases hval : cfg.Validate w.fs with (_ | err) | msg
    · by_cases hext : ExtAllowedDownsampleOGG m.GetExt = true
      · rcases hmk : env.mkdirTemp w.fs with ⟨d, _ | err⟩
        · exact Or.inr ⟨d, hinit, rfl, hext, rfl⟩
        · left
          unfold Media.DownsampleOGG
          simp [hinit, hval, hext, osMkdirTemp_error env w d err hmk]
      · left
        unfold Media.DownsampleOGG
        simp [hinit, hval, hext]
    · left
      unfold Media.DownsampleOGG
      simp [hinit, hval]
    · left
      unfold Media.DownsampleOGG
      simp [hinit, hval]
  · left
    unfold Media.DownsampleOGG
    simp [hinit]

/-- The state after the run of `ffmpeg`. -/
theorem DownsampleOpus_world (env : Env) (w : World) (src tgt br : String) :
    (DownsampleOpus env w src tgt br).2.log =
        w.log ++ [Event.exec "ffmpeg" (downsampleOpusArgs src tgt br)] ∧
    ∀ p, p ≠ tgt → (DownsampleOpus env w src tgt br).2.fs p = w.fs p := by
  rcases env with ⟨mk, ff, fp, rf, sa, tp⟩
  unfold DownsampleOpus
  simp only
  generalize ff w.fs (downsampleOpusArgs src tgt br) = r
  rcases r with ⟨⟨out, _ | err⟩, _ | info⟩ <;> simp [FS.write] <;> intro p hp <;> simp [hp]

theorem NewMedia_error_form (env : Env) (fs : FS) (p : String) (med : Media) (e : GoError)
    (h : NewMedia env fs p = (med, some e)) : ∃ t, e = .ErrFileOp (.text t) := by
  unfold NewMedia at h
  simp only at h
  split at h
  · simp only [Prod.mk.injEq, Option.some.injEq] at h
    exact ⟨_, h.2.symm⟩
  · split at h
    · simp only [Prod.mk.injEq, Option.some.injEq] at h
      exact ⟨_, h.2.symm⟩
    · split at h
      · simp only [Prod.mk.injEq, Option.some.injEq] at h
        exact ⟨_, h.2.symm⟩
      · simp at h

theorem NewMedia_ok_size (env : Env) (fs : FS) (p : String) (med : Media)
    (h : NewMedia env fs p = (med, none)) :
    ∃ info, fs p = some info ∧ med.size = info.size ∧ med.path = p ∧ med.initialized = true := by
  unfold NewMedia at h
  simp only at h
  split at h
  · simp at h
  · rename_i fileInfo hstat
    have hfs : fs p = some fileInfo := by
      unfold osStat at hstat
      split at hstat
      · rename_i info hinfo
        simp only [Except.ok.injEq] at hstat
        rw [hinfo, hstat]
      · simp at hstat
    split at h
    · simp at h
    · split at h
      · simp at h
      · simp only [Prod.mk.injEq, and_true] at h
        refine ⟨fileInfo, hfs, ?_, ?_, ?_⟩ <;> rw [← h]

/-- The record of calls after the part of `DownsampleOGG` that runs in the
workspace: the run of `ffmpeg`, and then possibly the call of `os.Rename`. -/
theorem downsampleInWorkDir_log (env : Env) (w : World) (m : Media) (cfg : DownsampleOGGConfig)
    (d : String) :
    ∀ e ∈ (downsampleInWorkDir env w m cfg d).2.log,
      e ∈ w.log ∨ (∃ app args, e = Event.exec app args) ∨ ∃ a b, e = Event.rename a b := by
  have hff := (DownsampleOpus_world env w m.GetPath
    (filepathJoin d (m.GetName ++ "." ++ extOGG)) (calculateBestBitrate m cfg.SizeCap)).1
  have key : (downsampleInWorkDir env w m cfg d).2.log =
        w.log ++ [Event.exec "ffmpeg" (downsampleOpusArgs m.GetPath
          (filepathJoin d (m.GetName ++ "." ++ extOGG)) (calculateBestBitrate m cfg.SizeCap))] ∨
      (downsampleInWorkDir env w m cfg d).2.log =
        w.log ++ [Event.exec "ffmpeg" (downsampleOpusArgs m.GetPath
          (filepathJoin d (m.GetName ++ "." ++ extOGG)) (calculateBestBitrate m cfg.SizeCap))] ++
          [Event.rename (filepathJoin d (m.GetName ++ "." ++ extOGG))
            (filepathJoin cfg.OutputBasePath (m.GetName ++ "." ++ extOGG))] := by
    unfold downsampleInWorkDir
    simp only
    split
    · rename_i err w1 h1
      rw [h1] at hff
      exact Or.inl hff
    · rename_i w1 h1
      rw [h1] at hff
      simp only at hff
      split
      · exact Or.inl hff
      · split
        · exact Or.inl hff
        · have hren : (osRename env w1 (filepathJoin d (m.GetName ++ "." ++ extOGG))
              (filepathJoin cfg.OutputBasePath (m.GetName ++ "." ++ extOGG))).2.log =
              w1.log ++ [Event.rename (filepathJoin d (m.GetName ++ "." ++ extOGG))
                (filepathJoin cfg.OutputBasePath (m.GetName ++ "." ++ extOGG))] := by
            unfold osRename
            simp only
            split
            · rfl
            · split <;> rfl
          rw [hff] at hren
          split
          · rename_i h2
            rw [h2] at hren
            exact Or.inr hren
          · rename_i h2
            rw [h2] at hren
            split <;> exact Or.inr hren
  intro e he
  rcases key with k | k
  · rw [k] at he
    simp only [List.mem_append, List.mem_singleton] at he
    rcases he with he | he
    · exact Or.inl he
    · exact Or.inr (Or.inl ⟨_, _, he⟩)
  · rw [k] at he
    simp only [List.mem_append, List.mem_singleton] at he
    rcases he with (he | he) | he
    · exact Or.inl he
    · exact Or.inr (Or.inl ⟨_, _, he⟩)
    · exact Or.inr (Or.inr ⟨_, _, he⟩)

/-- C5. Whenever a call of `DownsampleOGG` creates a scratch workspace directory `d`
(the call `os.MkdirTemp` that created `d` is in the record after the call and was
not there before), the call returns, and in the state after it neither `d` nor
anything below `d` exists, whichever `return` ended the call. -/
theorem DownsampleOGG_removes_workspace (env : Env) (w : World) (m : Media)
    (cfg : DownsampleOGGConfig) (d : String)
    (hnew : Event.mkdirTemp d ∉ w.log)
    (hcreated : Event.mkdirTemp d ∈ (m.DownsampleOGG env w cfg).2.log) :
    (∃ r, (m.DownsampleOGG env w cfg).1 = .returned r) ∧
    (m.DownsampleOGG env w cfg).2.fs d = none ∧
    ∀ p, isUnder d p = true → (m.DownsampleOGG env w cfg).2.fs p = none := by
  rcases DownsampleOGG_world_cases env w m cfg with hw | ⟨d1, hinit, hval, hext, hmk⟩
  · rw [hw] at hcreated
    exact absurd hcreated hnew
  · rw [DownsampleOGG_in_workDir env w m cfg d1 hinit hval hext hmk] at hcreated ⊢
    have hd : d = d1 := by
      simp only [osRemoveAll, List.mem_append, List.mem_singleton] at hcreated
      rcases hcreated with h | h
      · rcases downsampleInWorkDir_log env _ m cfg d1 _ h with h1 | ⟨_, _, h1⟩ | ⟨_, _, h1⟩
        · simp only [List.mem_append, List.mem_singleton] at h1
          rcases h1 with h1 | h1
          · exact absurd h1 hnew
          · exact Event.mkdirTemp.inj h1
        · exact absurd h1 (by simp)
        · exact absurd h1 (by simp)
      · exact absurd h (by simp)
    subst hd
    refine ⟨⟨_, rfl⟩, ?_, ?_⟩
    · simp [osRemoveAll, isUnder]
    · intro p hp
      simp [osRemoveAll, hp]

/-- Witness of C5 on two paths through the example world: full success, and failure
of the probe of the published file. -/
theorem DownsampleOGG_removes_workspace_witness :
    (Event.mkdirTemp "/tmp/spiritor123" ∉ exampleWorld.log ∧
      Event.mkdirTemp "/tmp/spiritor123" ∈
        (Media.DownsampleOGG (exampleEnv 7992132 "") exampleWorld exampleSource
          exampleConfig).2.log) ∧
    ((∃ r, (Media.DownsampleOGG (exampleEnv 7992132 "") exampleWorld exampleSource
        exampleConfig).1 = .returned r) ∧
      (Media.DownsampleOGG (exampleEnv 7992132 "") exampleWorld exampleSource
        exampleConfig).2.fs "/tmp/spiritor123" = none ∧
      ∀ p, isUnder "/tmp/spiritor123" p = true →
        (Media.DownsampleOGG (exampleEnv 7992132 "") exampleWorld exampleSource
          exampleConfig).2.fs p = none) ∧
    (Media.DownsampleOGG (exampleEnv 7992132 "") exampleWorld exampleSource exampleConfig).1 =
      .returned (Media.mk "/out/example_zoom.MP3.ogg" 7992132 2705000000000 0 true, none) ∧
    (Media.DownsampleOGG (exampleEnv 7992132 "/out/example_zoom.MP3.ogg") exampleWorld
        exampleSource exampleConfig).2.fs "/tmp/spiritor123" = none :=
  ⟨⟨by decide, by decide⟩,
    DownsampleOGG_removes_workspace (exampleEnv 7992132 "") exampleWorld exampleSource
      exampleConfig "/tmp/spiritor123" (by decide) (by decide),
    by rfl,
    (DownsampleOGG_removes_workspace (exampleEnv 7992132 "/out/example_zoom.MP3.ogg")
      exampleWorld exampleSource exampleConfig "/tmp/spiritor123" (by decide) (by decide)).2.1⟩

theorem osMkdirTemp_inv (env : Env) (w w1 : World) (d : String)
    (h : osMkdirTemp env w = (d, none, w1)) :
    env.mkdirTemp w.fs = (d, none) ∧
      w1 = { fs := w.fs.write d { isDir := true, size := 0 },
             log := w.log ++ [Event.mkdirTemp d] } := by
  unfold osMkdirTemp at h
  split at h
  · simp at h
  · rename_i dir hmk
    simp only [Prod.mk.injEq, true_and] at h
    rw [hmk, ← h.1, ← h.2]
    exact ⟨rfl, rfl⟩

theorem osRename_error_form (env : Env) (w w2 : World) (a b err : String)
    (h : osRename env w a b = (some err, w2)) : w2.fs = w.fs := by
  unfold osRename at h
  simp only at h
  split at h
  · simp only [Prod.mk.injEq] at h
    rw [← h.2]
  · split at h
    · simp only [Prod.mk.injEq] at h
      rw [← h.2]
    · simp at h

/-- C4. When validation, workspace creation, the run of `ffmpeg` and the probe of the
produced file all succeed, `DownsampleOGG` returns `ErrSizeCapExceeded` if and only
if the probed size `tm.size` of the produced file is greater than `config.SizeCap`;
in that case the error carries `config.SizeCap` and the probed size, and the
descriptor returned with it is the probed one, whose size is the size of the file
that `ffmpeg` left in the workspace. -/
theorem DownsampleOGG_size_cap_exceeded_iff (env : Env) (w w1 w2 : World) (m tm : Media)
    (cfg : DownsampleOGGConfig) (d : String)
    (hinit : m.initialized = true) (hval : cfg.Validate w.fs = .returned none)
    (hext : ExtAllowedDownsampleOGG m.GetExt = true)
    (hmk : osMkdirTemp env w = (d, none, w1))
    (hff : DownsampleOpus env w1 m.GetPath (filepathJoin d (m.GetName ++ "." ++ extOGG))
      (calculateBestBitrate m cfg.SizeCap) = (none, w2))
    (hprobe : NewMedia env w2.fs (filepathJoin d (m.GetName ++ "." ++ extOGG)) = (tm, none)) :
    (returnsSizeCapExceeded (m.DownsampleOGG env w cfg).1 ↔ tm.size > cfg.SizeCap) ∧
    (tm.size > cfg.SizeCap →
      (m.DownsampleOGG env w cfg).1 =
        .returned (tm, some (.ErrSizeCapExceeded cfg.SizeCap tm.size))) ∧
    (∃ info, w2.fs (filepathJoin d (m.GetName ++ "." ++ extOGG)) = some info ∧
      tm.size = info.size) := by
  obtain ⟨hmk1, rfl⟩ := osMkdirTemp_inv env w w1 d hmk
  obtain ⟨info, hinfo, hsize, _, _⟩ := NewMedia_ok_size env w2.fs _ tm hprobe
  rw [DownsampleOGG_in_workDir env w m cfg d hinit hval hext hmk1]
  simp only
  have hbody : (downsampleInWorkDir env
      { fs := w.fs.write d { isDir := true, size := 0 }, log := w.log ++ [Event.mkdirTemp d] }
      m cfg d).1 =
      if tm.size > cfg.SizeCap then (tm, some (.ErrSizeCapExceeded cfg.SizeCap tm.size))
      else
        (match osRename env w2 (filepathJoin d (m.GetName ++ "." ++ extOGG))
            (filepathJoin cfg.OutputBasePath (m.GetName ++ "." ++ extOGG)) with
          | (some err, w3) =>
              ((tm, some (GoError.ErrFileOp (.text ("file move/rename failed: " ++ err)))), w3)
          | (none, w3) =>
              match NewMedia env w3.fs
                  (filepathJoin cfg.OutputBasePath (m.GetName ++ "." ++ extOGG)) with
              | (targetMedia, some err) =>
                  ((targetMedia, some (.wrapped "new final media failed: " err)), w3)
              | (targetMedia, none) => ((targetMedia, none), w3)).1 := by
    unfold downsampleInWorkDir
    simp only [hff, hprobe, Media.GetSize]
    split_ifs <;> rfl
  rw [hbody]
  by_cases hgt : tm.size > cfg.SizeCap
  · simp only [hgt, if_true, true_implies, iff_true]
    exact ⟨⟨tm, _, cfg.SizeCap, tm.size, rfl, rfl⟩, trivial, info, hinfo, hsize⟩
  · simp only [hgt, if_false, false_implies, iff_false, true_and]
    refine ⟨?_, info, hinfo, hsize⟩
    rintro ⟨med, e, c, s, heq, has⟩
    split at heq
    · simp only [Outcome.returned.injEq, Prod.mk.injEq, Option.some.injEq] at heq
      rw [← heq.2] at has
      simp [GoError.asSizeCapExceeded] at has
    · split at heq
      · rename_i tmf err hnm
        obtain ⟨t, rfl⟩ := NewMedia_error_form env _ _ tmf err hnm
        simp only [Outcome.returned.injEq, Prod.mk.injEq, Option.some.injEq] at heq
        rw [← heq.2] at has
        simp [GoError.asSizeCapExceeded] at has
      · simp at heq

/-- Witness of C4: in the example world `ffmpeg` leaves 30000000 bytes under a cap of
25000000 bytes. -/
theorem DownsampleOGG_size_cap_exceeded_iff_witness :
    (exampleSource.initialized = true ∧
      exampleConfig.Validate exampleWorld.fs = .returned none ∧
      ExtAllowedDownsampleOGG exampleSource.GetExt = true ∧
      osMkdirTemp oversizeEnv exampleWorld = ("/tmp/spiritor123", none, oversizeWorld1) ∧
      DownsampleOpus oversizeEnv oversizeWorld1 exampleSource.GetPath
        (filepathJoin "/tmp/spiritor123" (exampleSource.GetName ++ "." ++ extOGG))
        (calculateBestBitrate exampleSource exampleConfig.SizeCap) = (none, oversizeWorld2) ∧
      NewMedia oversizeEnv oversizeWorld2.fs
        (filepathJoin "/tmp/spiritor123" (exampleSource.GetName ++ "." ++ extOGG)) =
        (oversizeMedia, none)) ∧
    ((returnsSizeCapExceeded (exampleSource.DownsampleOGG oversizeEnv exampleWorld exampleConfig).1 ↔
        oversizeMedia.size > exampleConfig.SizeCap) ∧
      (oversizeMedia.size > exampleConfig.SizeCap →
        (exampleSource.DownsampleOGG oversizeEnv exampleWorld exampleConfig).1 =
          .returned (oversizeMedia,
            some (.ErrSizeCapExceeded exampleConfig.SizeCap oversizeMedia.size))) ∧
      (∃ info, oversizeWorld2.fs
          (filepathJoin "/tmp/spiritor123" (exampleSource.GetName ++ "." ++ extOGG)) = some info ∧
        oversizeMedia.size = info.size)) ∧
    oversizeMedia.size > exampleConfig.SizeCap :=
  ⟨⟨rfl, by rfl, by rfl, by rfl, by rfl, by rfl⟩,
    DownsampleOGG_size_cap_exceeded_iff oversizeEnv exampleWorld oversizeWorld1 oversizeWorld2
      exampleSource oversizeMedia exampleConfig "/tmp/spiritor123"
      rfl (by rfl) (by rfl) (by rfl) (by rfl) (by rfl),
    by decide⟩

/-- C6, as stated, fails: when the probe of the published file fails, `DownsampleOGG`
returns a non-nil error although `os.Rename` has already put the file
`/out/example_zoom.MP3.ogg`, absent before the call, into the output directory. -/
theorem DownsampleOGG_error_after_publish :
    (exampleSource.DownsampleOGG finalProbeFailsEnv exampleWorld exampleConfig).1 =
      .returned (Media.mk "/out/example_zoom.MP3.ogg" 7992132 0 0 false,
        some (.wrapped "new final media failed: "
          (.ErrFileOp (.text "failed to probe bitrate: probe error: exit status 1: ")))) ∧
    isUnder exampleConfig.OutputBasePath "/out/example_zoom.MP3.ogg" = true ∧
    exampleWorld.fs "/out/example_zoom.MP3.ogg" = none ∧
    (exampleSource.DownsampleOGG finalProbeFailsEnv exampleWorld exampleConfig).2.fs
      "/out/example_zoom.MP3.ogg" = some { isDir := false, size := 7992132 } :=
  ⟨by rfl, by decide, by decide, by decide⟩

theorem isUnder_filepathJoin (d name : String) : isUnder d (filepathJoin d name) = true := by
  unfold isUnder filepathJoin
  simp [String.data_append, List.isPrefixOf_iff_prefix]

theorem isUnder_self (d : String) : isUnder d d = true := by
  simp [isUnder]

/-- Unless the call ended with the failure of the probe of the published file, an
error return of the part of `DownsampleOGG` that runs in the workspace has changed
at most the target file in the workspace. -/
theorem downsampleInWorkDir_error_fs (env : Env) (w : World) (m : Media)
    (cfg : DownsampleOGGConfig) (d : String) (e : GoError)
    (herr : (downsampleInWorkDir env w m cfg d).1.2 = some e)
    (hnot : ∀ inner, e ≠ .wrapped "new final media failed: " inner) :
    ∀ p, p ≠ filepathJoin d (m.GetName ++ "." ++ extOGG) →
      (downsampleInWorkDir env w m cfg d).2.fs p = w.fs p := by
  have hff := (DownsampleOpus_world env w m.GetPath
    (filepathJoin d (m.GetName ++ "." ++ extOGG)) (calculateBestBitrate m cfg.SizeCap)).2
  intro p hp
  have hffp := hff p hp
  unfold downsampleInWorkDir at herr ⊢
  simp only at herr ⊢
  split
  · rename_i err w1 h1
    rw [h1] at hffp
    exact hffp
  · rename_i w1 h1
    rw [h1] at hffp herr
    simp only at hffp herr
    split
    · exact hffp
    · rename_i tm h2
      rw [h2] at herr
      simp only at herr
      split
      · exact hffp
      · rename_i hsz
        simp only [hsz, if_false] at herr
        split
        · rename_i err w2 h3
          simp only
          rw [osRename_error_form env w1 w2 _ _ err h3]
          exact hffp
        · rename_i w2 h3
          rw [h3] at herr
          simp only at herr
          split
          · rename_i tmf err h4
            rw [h4] at herr
            simp only [Option.some.injEq] at herr
            exact absurd herr.symm (hnot err)
          · rename_i tmf h4
            rw [h4] at herr
            simp at herr

/-- C6, amended. When `os.MkdirTemp` creates a new directory (nothing existed at or
below its path), every call of `DownsampleOGG` that returns a non-nil error other
than the failure of the probe of the published file ("new final media failed")
leaves every path of the filesystem, and so the contents of `config.OutputBasePath`,
as before the call; this covers the return of `ErrSizeCapExceeded`. -/
theorem DownsampleOGG_error_keeps_files (env : Env) (w : World) (m med : Media)
    (cfg : DownsampleOGGConfig) (e : GoError)
    (hfresh : ∀ d, env.mkdirTemp w.fs = (d, none) → ∀ p, isUnder d p = true → w.fs p = none)
    (herr : (m.DownsampleOGG env w cfg).1 = .returned (med, some e))
    (hnot : ∀ inner, e ≠ .wrapped "new final media failed: " inner) :
    (∀ p, (m.DownsampleOGG env w cfg).2.fs p = w.fs p) ∧
    (∀ p, isUnder cfg.OutputBasePath p = true →
      (m.DownsampleOGG env w cfg).2.fs p = w.fs p) := by
  have main : ∀ p, (m.DownsampleOGG env w cfg).2.fs p = w.fs p := by
    rcases DownsampleOGG_world_cases env w m cfg with hw | ⟨d, hinit, hval, hext, hmk⟩
    · intro p
      rw [hw]
    · rw [DownsampleOGG_in_workDir env w m cfg d hinit hval hext hmk] at herr ⊢
      simp only [Outcome.returned.injEq] at herr
      have herr2 : (downsampleInWorkDir env
          { fs := w.fs.write d { isDir := true, size := 0 },
            log := w.log ++ [Event.mkdirTemp d] } m cfg d).1.2 = some e := by
        rw [herr]
      have hfs := downsampleInWorkDir_error_fs env _ m cfg d e herr2 hnot
      intro p
      simp only [osRemoveAll]
      by_cases hu : isUnder d p = true
      · simp only [hu, if_true]
        exact (hfresh d hmk p hu).symm
      · simp only [hu]
        have hp1 : p ≠ filepathJoin d (m.GetName ++ "." ++ extOGG) := by
          intro h
          rw [h] at hu
          exact hu (isUnder_filepathJoin d _)
        have hp2 : p ≠ d := by
          intro h
          rw [h] at hu
          exact hu (isUnder_self d)
        rw [hfs p hp1]
        simp [FS.write, hp2]
  exact ⟨main, fun p _ => main p⟩

/-- Witness of C6 as amended: in the example world the oversized result is reported
with `ErrSizeCapExceeded` and no path has changed. -/
theorem DownsampleOGG_error_keeps_files_witness :
    ((∀ d, oversizeEnv.mkdirTemp exampleWorld.fs = (d, none) →
        ∀ p, isUnder d p = true → exampleWorld.fs p = none) ∧
      (exampleSource.DownsampleOGG oversizeEnv exampleWorld exampleConfig).1 =
        .returned (oversizeMedia, some (.ErrSizeCapExceeded 25000000 30000000)) ∧
      (∀ inner, GoError.ErrSizeCapExceeded 25000000 30000000 ≠
        .wrapped "new final media failed: " inner)) ∧
    ((∀ p, (exampleSource.DownsampleOGG oversizeEnv exampleWorld exampleConfig).2.fs p =
        exampleWorld.fs p) ∧
      (∀ p, isUnder exampleConfig.OutputBasePath p = true →
        (exampleSource.DownsampleOGG oversizeEnv exampleWorld exampleConfig).2.fs p =
          exampleWorld.fs p)) :=
  have hfresh : ∀ d, oversizeEnv.mkdirTemp exampleWorld.fs = (d, none) →
      ∀ p, isUnder d p = true → exampleWorld.fs p = none := by
    intro d hd p hp
    have hd1 : d = "/tmp/spiritor123" := (congrArg Prod.fst hd).symm
    subst hd1
    have h1 : p ≠ "/out" := by
      intro h
      rw [h] at hp
      exact absurd hp (by decide)
    have h2 : p ≠ "/in/example_zoom.MP3" := by
      intro h
      rw [h] at hp
      exact absurd hp (by decide)
    simp [exampleWorld, exampleFS, h1, h2]
  ⟨⟨hfresh, by rfl, fun _ h => GoError.noConfusion h⟩,
    DownsampleOGG_error_keeps_files oversizeEnv exampleWorld exampleSource oversizeMedia
      exampleConfig (.ErrSizeCapExceeded 25000000 30000000) hfresh (by rfl)
      (fun _ h => GoError.noConfusion h)⟩

/-! ## The message of `ErrSizeCapExceeded` and monotonicity of the selector -/

/-- C15, evaluated at a failing input.  `ErrSizeCapExceeded.Error` passes `e.SizeCap`
for the first `%v` and `e.FileSize` for the second, so the message reports the cap
where it says "file size" and the file size where it says "maximum size cap": for
`SizeCap` 25000000 and `FileSize` 30000000 it is not the text that names 30000000 as
the file size. -/
theorem ErrSizeCapExceeded_message_swapped :
    (∀ sizeCap fileSize : Int,
      (GoError.ErrSizeCapExceeded sizeCap fileSize).Error =
        "file size [" ++ toString sizeCap ++ "] exceeded the maximum size cap: " ++
          toString fileSize) ∧
    (GoError.ErrSizeCapExceeded 25000000 30000000).Error =
      "file size [25000000] exceeded the maximum size cap: 30000000" ∧
    (GoError.ErrSizeCapExceeded 25000000 30000000).Error ≠
      "file size [" ++ toString (30000000 : Int) ++ "] exceeded the maximum size cap: " ++
        toString (25000000 : Int) := by
  refine ⟨fun _ _ => ?_, by decide, by decide⟩
  simp [GoError.Error]

/-- C16. For every descriptor and all caps `c1 ≤ c2` the tier selected under `c1` is
at most the tier selected under `c2`, and the selected bitrate is always one of
"48k", "24k", "12k" (48000, 24000, 12000 bits per second). -/
theorem calculateBestBitrate_monotone (m : Media) (c1 c2 : Int) (h : c1 ≤ c2) :
    tierValue (calculateBestBitrate m c1) ≤ tierValue (calculateBestBitrate m c2) ∧
    calculateBestBitrate m c1 ∈ [str48k, str24k, str12k] ∧
    tierValue (calculateBestBitrate m c1) ∈ tiers := by
  rw [calculateBestBitrate_unfold, calculateBestBitrate_unfold]
  generalize (wrapInt64 (bitrate48k * roundedSeconds m.duration)).tdiv 8 = p48
  generalize (wrapInt64 (bitrate24k * roundedSeconds m.duration)).tdiv 8 = p24
  simp only [tiers, bitrate48k, bitrate24k, bitrate12k]
  split_ifs <;>
    simp only [tierValue_str48k, tierValue_str24k, tierValue_str12k, List.mem_cons,
      List.mem_singleton, true_or, or_true, and_true, le_refl] <;>
    omega

/-- Witness of C16: the example source under the caps 1000000 and 2000000 bytes
(the selection rises from "12k" to "24k"). -/
theorem calculateBestBitrate_monotone_witness :
    ((1000000 : Int) ≤ 2000000) ∧
    (tierValue (calculateBestBitrate exampleSignal 1000000) ≤
        tierValue (calculateBestBitrate exampleSignal 2000000) ∧
      calculateBestBitrate exampleSignal 1000000 ∈ [str48k, str24k, str12k] ∧
      tierValue (calculateBestBitrate exampleSignal 1000000) ∈ tiers) ∧
    calculateBestBitrate exampleSignal 1000000 = str12k ∧
    calculateBestBitrate exampleSignal 2000000 = str24k :=
  ⟨by decide, calculateBestBitrate_monotone exampleSignal 1000000 2000000 (by decide),
    by decide, by decide⟩

/-! ## Classification of the returned errors -/

theorem NewMedia_error_kind (env : Env) (fs : FS) (p : String) (med : Media) (e : GoError)
    (h : NewMedia env fs p = (med, some e)) : e.kind = some .fileOp := by
  obtain ⟨t, rfl⟩ := NewMedia_error_form env fs p med e h
  rfl

theorem NewMedia_fails_of_cause (env : Env) (fs : FS) (p : String)
    (h : (∃ msg, osStat fs p = .error msg) ∨ (∃ b e, ProbeBitrate env fs p = (b, some e)) ∨
      (∃ d e, ProbeDuration env fs p = (d, some e))) :
    ∃ med e, NewMedia env fs p = (med, some e) := by
  unfold NewMedia
  simp only
  rcases hs : osStat fs p with msg | info
  · exact ⟨_, _, rfl⟩
  · rcases hb : ProbeBitrate env fs p with ⟨b, _ | eb⟩
    · rcases hd : ProbeDuration env fs p with ⟨d, _ | ed⟩
      · rcases h with ⟨msg, h⟩ | ⟨b1, e, h⟩ | ⟨d1, e, h⟩
        · rw [hs] at h; exact absurd h (by simp)
        · rw [hb] at h; simp at h
        · rw [hd] at h; simp at h
      · exact ⟨_, _, rfl⟩
    · exact ⟨_, _, rfl⟩

theorem downsampleInWorkDir_error_kind (env : Env) (w1 : World) (m : Media)
    (cfg : DownsampleOGGConfig) (d : String) (med : Media) (e : GoError)
    (h : (downsampleInWorkDir env w1 m cfg d).1 = (med, some e)) : ∃ k, e.kind = some k := by
  unfold downsampleInWorkDir at h
  simp only at h
  split at h
  · simp only [Prod.mk.injEq, Option.some.injEq] at h
    exact ⟨_, by rw [← h.2]; rfl⟩
  · split at h
    · rename_i tm err hnm
      simp only [Prod.mk.injEq, Option.some.injEq] at h
      refine ⟨.fileOp, ?_⟩
      rw [← h.2]
      exact NewMedia_error_kind env _ _ tm err hnm
    · split at h
      · simp only [Prod.mk.injEq, Option.some.injEq] at h
        exact ⟨_, by rw [← h.2]; rfl⟩
      · split at h
        · simp only [Prod.mk.injEq, Option.some.injEq] at h
          exact ⟨_, by rw [← h.2]; rfl⟩
        · split at h
          · rename_i tm err hnm
            simp only [Prod.mk.injEq, Option.some.injEq] at h
            refine ⟨.fileOp, ?_⟩
            rw [← h.2]
            exact NewMedia_error_kind env _ _ tm err hnm
          · simp at h

/-- C14. Every non-nil error returned by `DownsampleOGG` or `NewMedia` is an
`ErrValidation`, an `ErrFileOp` or an `ErrSizeCapExceeded`, itself or on its `Unwrap`
chain.  By cause: an uninitialized source, a config for which `Validate` returns an
error and a disallowed extension give `ErrValidation`; failure of `os.MkdirTemp`, of
the run of `ffmpeg`, of the stat or a probe in `NewMedia` (at the workspace path and
at the final path) and of `os.Rename` give `ErrFileOp`; a produced file larger than
`SizeCap` gives `ErrSizeCapExceeded`. -/
theorem returned_errors_classified (env : Env) (w : World) (m : Media)
    (cfg : DownsampleOGGConfig) :
    (∀ med e, (m.DownsampleOGG env w cfg).1 = .returned (med, some e) → ∃ k, e.kind = some k) ∧
    (∀ fs p med e, NewMedia env fs p = (med, some e) → e.kind = some .fileOp) ∧
    (∀ fs p, ((∃ msg, osStat fs p = .error msg) ∨ (∃ b e, ProbeBitrate env fs p = (b, some e)) ∨
        (∃ d e, ProbeDuration env fs p = (d, some e))) →
      ∃ med e, NewMedia env fs p = (med, some e) ∧ e.kind = some .fileOp) ∧
    (m.initialized = false →
      returnedKind (m.DownsampleOGG env w cfg).1 = some .validation) ∧
    (m.initialized = true → ∀ err, cfg.Validate w.fs = .returned (some err) →
      returnedKind (m.DownsampleOGG env w cfg).1 = some .validation) ∧
    (m.initialized = true → cfg.Validate w.fs = .returned none →
      ExtAllowedDownsampleOGG m.GetExt = false →
      returnedKind (m.DownsampleOGG env w cfg).1 = some .validation) ∧
    (m.initialized = true → cfg.Validate w.fs = .returned none →
      ExtAllowedDownsampleOGG m.GetExt = true →
      (∀ d msg, env.mkdirTemp w.fs = (d, some msg) →
        returnedKind (m.DownsampleOGG env w cfg).1 = some .fileOp) ∧
      (∀ d w1, osMkdirTemp env w = (d, none, w1) →
        (∀ err w2, DownsampleOpus env w1 m.GetPath (filepathJoin d (m.GetName ++ "." ++ extOGG))
            (calculateBestBitrate m cfg.SizeCap) = (some err, w2) →
          returnedKind (m.DownsampleOGG env w cfg).1 = some .fileOp) ∧
        (∀ w2, DownsampleOpus env w1 m.GetPath (filepathJoin d (m.GetName ++ "." ++ extOGG))
            (calculateBestBitrate m cfg.SizeCap) = (none, w2) →
          (∀ tm err, NewMedia env w2.fs (filepathJoin d (m.GetName ++ "." ++ extOGG)) =
              (tm, some err) →
            returnedKind (m.DownsampleOGG env w cfg).1 = some .fileOp) ∧
          (∀ tm, NewMedia env w2.fs (filepathJoin d (m.GetName ++ "." ++ extOGG)) =
              (tm, none) →
            (tm.size > cfg.SizeCap →
              returnedKind (m.DownsampleOGG env w cfg).1 = some .sizeCapExceeded) ∧
            (¬ tm.size > cfg.SizeCap →
              (∀ err w3, osRename env w2 (filepathJoin d (m.GetName ++ "." ++ extOGG))
                  (filepathJoin cfg.OutputBasePath (m.GetName ++ "." ++ extOGG)) =
                  (some err, w3) →
                returnedKind (m.DownsampleOGG env w cfg).1 = some .fileOp) ∧
              (∀ w3, osRename env w2 (filepathJoin d (m.GetName ++ "." ++ extOGG))
                  (filepathJoin cfg.OutputBasePath (m.GetName ++ "." ++ extOGG)) =
                  (none, w3) →
                ∀ tmf err, NewMedia env w3.fs
                    (filepathJoin cfg.OutputBasePath (m.GetName ++ "." ++ extOGG)) =
                    (tmf, some err) →
                  returnedKind (m.DownsampleOGG env w cfg).1 = some .fileOp)))))) := by
  refine ⟨?_, ?_, ?_, ?_, ?_, ?_, ?_⟩
  · intro med e h
    by_cases hinit : m.initialized = true
    · rcases hval : cfg.Validate w.fs with (_ | verr) | msg
      · by_cases hext : ExtAllowedDownsampleOGG m.GetExt = true
        · rcases hmk : env.mkdirTemp w.fs with ⟨d, _ | err⟩
          · rw [DownsampleOGG_in_workDir env w m cfg d hinit hval hext hmk] at h
            simp only [Outcome.returned.injEq] at h
            exact downsampleInWorkDir_error_kind env _ m cfg d med e h
          · unfold Media.DownsampleOGG at h
            simp [hinit, hval, hext, osMkdirTemp_error env w d err hmk] at h
            exact ⟨_, by rw [← h.2]; rfl⟩
        · unfold Media.DownsampleOGG at h
          simp [hinit, hval, hext] at h
          exact ⟨_, by rw [← h.2]; rfl⟩
      · unfold Media.DownsampleOGG at h
        simp [hinit, hval] at h
        exact ⟨_, by rw [← h.2]; rfl⟩
      · unfold Media.DownsampleOGG at h
        simp [hinit, hval] at h
    · unfold Media.DownsampleOGG at h
      simp [hinit] at h
      exact ⟨_, by rw [← h.2]; rfl⟩
  · intro fs p med e h
    exact NewMedia_error_kind env fs p med e h
  · intro fs p h
    obtain ⟨med, e, he⟩ := NewMedia_fails_of_cause env fs p h
    exact ⟨med, e, he, NewMedia_error_kind env fs p med e he⟩
  · intro hinit
    unfold Media.DownsampleOGG
    simp [hinit, returnedKind, GoError.kind]
  · intro hinit err hval
    unfold Media.DownsampleOGG
    simp [hinit, hval, returnedKind, GoError.kind]
  · intro hinit hval hext
    unfold Media.DownsampleOGG
    simp [hinit, hval, hext, returnedKind, GoError.kind]
  · intro hinit hval hext
    refine ⟨?_, ?_⟩
    · intro d msg hmk
      unfold Media.DownsampleOGG
      simp [hinit, hval, hext, osMkdirTemp_error env w d msg hmk, returnedKind, GoError.kind]
    · intro d w1 hmk
      obtain ⟨hmk1, rfl⟩ := osMkdirTemp_inv env w w1 d hmk
      rw [DownsampleOGG_in_workDir env w m cfg d hinit hval hext hmk1]
      simp only
      refine ⟨?_, ?_⟩
      · intro err w2 hff
        unfold downsampleInWorkDir
        simp [hff, returnedKind, GoError.kind]
      · intro w2 hff
        refine ⟨?_, ?_⟩
        · intro tm err hnm
          unfold downsampleInWorkDir
          simp only [hff, hnm, returnedKind, GoError.kind]
          exact NewMedia_error_kind env _ _ tm err hnm
        · intro tm hnm
          refine ⟨?_, ?_⟩
          · intro hgt
            unfold downsampleInWorkDir
            simp [hff, hnm, hgt, Media.GetSize, returnedKind, GoError.kind]
          · intro hgt
            refine ⟨?_, ?_⟩
            · intro err w3 hren
              unfold downsampleInWorkDir
              simp [hff, hnm, hgt, hren, Media.GetSize, returnedKind, GoError.kind]
            · intro w3 hren tmf err hnf
              unfold downsampleInWorkDir
              simp only [hff, hnm, hgt, hren, hnf, Media.GetSize, returnedKind, GoError.kind,
                if_false]
              exact NewMedia_error_kind env _ _ tmf err hnf

/-- Witness of C14 in the example world: the uninitialized example source is
rejected with an `ErrValidation`, and the oversized result of `oversizeEnv` is
reported with an `ErrSizeCapExceeded`. -/
theorem returned_errors_classified_witness :
    (Media.zero.initialized = false ∧
      returnedKind (Media.zero.DownsampleOGG oversizeEnv exampleWorld exampleConfig).1 =
        some .validation) ∧
    ((exampleSource.initialized = true ∧
        exampleConfig.Validate exampleWorld.fs = .returned none ∧
        ExtAllowedDownsampleOGG exampleSource.GetExt = true ∧
        osMkdirTemp oversizeEnv exampleWorld = ("/tmp/spiritor123", none, oversizeWorld1) ∧
        DownsampleOpus oversizeEnv oversizeWorld1 exampleSource.GetPath
          (filepathJoin "/tmp/spiritor123" (exampleSource.GetName ++ "." ++ extOGG))
          (calculateBestBitrate exampleSource exampleConfig.SizeCap) = (none, oversizeWorld2) ∧
        NewMedia oversizeEnv oversizeWorld2.fs
          (filepathJoin "/tmp/spiritor123" (exampleSource.GetName ++ "." ++ extOGG)) =
          (oversizeMedia, none) ∧
        oversizeMedia.size > exampleConfig.SizeCap) ∧
      returnedKind (exampleSource.DownsampleOGG oversizeEnv exampleWorld exampleConfig).1 =
        some .sizeCapExceeded) :=
  ⟨⟨rfl, (returned_errors_classified oversizeEnv exampleWorld Media.zero exampleConfig).2.2.2.1
      rfl⟩,
    ⟨rfl, by rfl, by rfl, by rfl, by rfl, by rfl, by decide⟩,
    (((((returned_errors_classified oversizeEnv exampleWorld exampleSource
      exampleConfig).2.2.2.2.2.2 rfl (by rfl) (by rfl)).2 "/tmp/spiritor123" oversizeWorld1
      (by rfl)).2 oversizeWorld2 (by rfl)).2 oversizeMedia (by rfl)).1 (by decide)⟩

/-! ## The workers -/

theorem Validate_returns_of_exists (fs : FS) (cfg : DownsampleOGGConfig)
    (h : (fs cfg.OutputBasePath).isSome = true) : ∃ r, cfg.Validate fs = .returned r := by
  obtain ⟨info, hinfo⟩ := Option.isSome_iff_exists.mp h
  unfold DownsampleOGGConfig.Validate osStat
  simp only [hinfo]
  split_ifs <;> exact ⟨_, rfl⟩

theorem DownsampleOGG_returns_of_exists (env : Env) (w : World) (m : Media)
    (cfg : DownsampleOGGConfig) (h : (w.fs cfg.OutputBasePath).isSome = true) :
    ∃ r, (m.DownsampleOGG env w cfg).1 = .returned r := by
  obtain ⟨v, hv⟩ := Validate_returns_of_exists w.fs cfg h
  by_cases hinit : m.initialized = true
  · rcases v with _ | verr
    · by_cases hext : ExtAllowedDownsampleOGG m.GetExt = true
      · rcases hmk : env.mkdirTemp w.fs with ⟨d, _ | err⟩
        · rw [DownsampleOGG_in_workDir env w m cfg d hinit hv hext hmk]
          exact ⟨_, rfl⟩
        · unfold Media.DownsampleOGG
          simp only [hinit, hv, hext, osMkdirTemp_error env w d err hmk, not_true_eq_false,
            if_false]
          exact ⟨_, rfl⟩
      · unfold Media.DownsampleOGG
        simp only [hinit, hv, hext, not_true_eq_false, not_false_eq_true, if_false, if_true]
        exact ⟨_, rfl⟩
    · unfold Media.DownsampleOGG
      simp only [hinit, hv, not_true_eq_false, if_false]
      exact ⟨_, rfl⟩
  · unfold Media.DownsampleOGG
    simp only [hinit, not_false_eq_true, if_true]
    exact ⟨_, rfl⟩

theorem osRename_fs (env : Env) (w : World) (a b : String) (p : String) (hp : p ≠ a)
    (h : (w.fs p).isSome = true) : ((osRename env w a b).2.fs p).isSome = true := by
  unfold osRename
  simp only
  split
  · exact h
  · split
    · exact h
    · simp only [FS.write, FS.remove]
      split_ifs
      · rfl
      · exact h

/-- The part of `DownsampleOGG` that runs in the workspace removes no path other
than its target file in the workspace. -/
theorem downsampleInWorkDir_keeps (env : Env) (w : World) (m : Media)
    (cfg : DownsampleOGGConfig) (d p : String)
    (hp : p ≠ filepathJoin d (m.GetName ++ "." ++ extOGG)) (h : (w.fs p).isSome = true) :
    ((downsampleInWorkDir env w m cfg d).2.fs p).isSome = true := by
  have hff := (DownsampleOpus_world env w m.GetPath
    (filepathJoin d (m.GetName ++ "." ++ extOGG)) (calculateBestBitrate m cfg.SizeCap)).2 p hp
  unfold downsampleInWorkDir
  simp only
  split
  · rename_i err w1 h1
    rw [h1] at hff
    simp only at hff ⊢
    rw [hff]; exact h
  · rename_i w1 h1
    rw [h1] at hff
    simp only at hff
    have hw1 : (w1.fs p).isSome = true := by rw [hff]; exact h
    split
    · exact hw1
    · split
      · exact hw1
      · have hren := osRename_fs env w1 (filepathJoin d (m.GetName ++ "." ++ extOGG))
          (filepathJoin cfg.OutputBasePath (m.GetName ++ "." ++ extOGG)) p hp hw1
        split
        · rename_i h3
          rw [h3] at hren
          exact hren
        · rename_i h3
          rw [h3] at hren
          split <;> exact hren

/-- A call of `DownsampleOGG` whose scratch workspace does not contain the path `p`
leaves `p` in existence. -/
theorem DownsampleOGG_keeps_existing (env : Env) (w : World) (m : Media)
    (cfg : DownsampleOGGConfig) (p : String)
    (hscratch : ∀ d, env.mkdirTemp w.fs = (d, none) → isUnder d p = false)
    (h : (w.fs p).isSome = true) : ((m.DownsampleOGG env w cfg).2.fs p).isSome = true := by
  rcases DownsampleOGG_world_cases env w m cfg with hw | ⟨d, hinit, hval, hext, hmk⟩
  · rw [hw]; exact h
  · rw [DownsampleOGG_in_workDir env w m cfg d hinit hval hext hmk]
    have hnu : ¬ isUnder d p = true := by
      rw [hscratch d hmk]
      simp
    have hp1 : p ≠ filepathJoin d (m.GetName ++ "." ++ extOGG) := by
      intro e
      rw [e] at hnu
      exact hnu (isUnder_filepathJoin d _)
    have hp2 : p ≠ d := by
      intro e
      rw [e] at hnu
      exact hnu (isUnder_self d)
    simp only [osRemoveAll, hnu, if_false]
    apply downsampleInWorkDir_keeps env _ m cfg d p hp1
    simp only [FS.write, hp2, if_false]
    exact h

theorem downsampleSend_routed (job : Job) (tm : Media) (err : Option GoError) :
    (downsampleSend job tm err).2.SourceMedia = job.SourceMedia ∧
    (downsampleSend job tm err).2.Transcript = job.Transcript ∧
    ((err ≠ none ∧ (downsampleSend job tm err).1 = .failed ∧
        (downsampleSend job tm err).2.Err ≠ none ∧
        (downsampleSend job tm err).2.TargetMedia = job.TargetMedia) ∨
      (err = none ∧ (downsampleSend job tm err).1 = .success ∧
        (downsampleSend job tm err).2.TargetMedia = tm ∧
        (downsampleSend job tm err).2.Err = job.Err)) := by
  cases err <;> simp [downsampleSend]

theorem transcriptionSend_routed (job : Job) (ts : Transcript) (err : Option GoError) :
    (transcriptionSend job ts err).2.SourceMedia = job.SourceMedia ∧
    (transcriptionSend job ts err).2.TargetMedia = job.TargetMedia ∧
    ((err ≠ none ∧ (transcriptionSend job ts err).1 = .failed ∧
        (transcriptionSend job ts err).2.Err ≠ none ∧
        (transcriptionSend job ts err).2.Transcript = job.Transcript) ∨
      (err = none ∧ (transcriptionSend job ts err).1 = .success ∧
        (transcriptionSend job ts err).2.Transcript = ts ∧
        (transcriptionSend job ts err).2.Err = job.Err)) := by
  cases err <;> simp [transcriptionSend]

theorem DownsampleWorker_total (env : Env) (workdir : String)
    (hscratch : ∀ fs d, env.mkdirTemp fs = (d, none) → isUnder d workdir = false)
    (jobs : List Job) :
    ∀ w : World, (w.fs workdir).isSome = true →
      (DownsampleWorker env workdir w jobs).panic = none ∧
      List.Forall₂ (TransformRouted env workdir) jobs (DownsampleWorker env workdir w jobs).sends := by
  induction jobs with
  | nil =>
    intro w _
    exact ⟨rfl, List.Forall₂.nil⟩
  | cons job rest ih =>
    intro w hw
    obtain ⟨⟨tm, err⟩, hr⟩ := DownsampleOGG_returns_of_exists env w job.SourceMedia
      (downsampleWorkerConfig workdir) hw
    have hkeep := DownsampleOGG_keeps_existing env w job.SourceMedia
      (downsampleWorkerConfig workdir) workdir (hscratch w.fs) hw
    rcases hcall : job.SourceMedia.DownsampleOGG env w (downsampleWorkerConfig workdir)
      with ⟨o, w1⟩
    rw [hcall] at hr hkeep
    simp only at hr hkeep
    subst hr
    obtain ⟨hp, hs⟩ := ih w1 hkeep
    unfold DownsampleWorker
    simp only [hcall]
    refine ⟨hp, List.Forall₂.cons ?_ hs⟩
    exact ⟨w, w1, tm, err, hcall, downsampleSend_routed job tm err⟩

theorem TranscriptionWorker_routed (transcribe : Nat → String → Transcript × Option GoError)
    (jobs : List Job) :
    ∀ n, List.Forall₂ (TranscribeRouted transcribe) jobs
      (TranscriptionWorker transcribe n jobs) := by
  induction jobs with
  | nil => intro n; exact List.Forall₂.nil
  | cons job rest ih =>
    intro n
    unfold TranscriptionWorker
    simp only
    refine List.Forall₂.cons ?_ (ih (n + 1))
    exact ⟨n, _, _, rfl, transcriptionSend_routed job _ _⟩

theorem DownsampleWorker_sends_initial_segment (env : Env) (workdir : String)
    (jobs : List Job) :
    ∀ w : World,
      List.Forall₂ (TransformRouted env workdir)
        (jobs.take (DownsampleWorker env workdir w jobs).sends.length)
        (DownsampleWorker env workdir w jobs).sends ∧
      ((DownsampleWorker env workdir w jobs).panic = none →
        (DownsampleWorker env workdir w jobs).sends.length = jobs.length) := by
  induction jobs with
  | nil =>
    intro w
    exact ⟨List.Forall₂.nil, fun _ => rfl⟩
  | cons job rest ih =>
    intro w
    rcases hcall : job.SourceMedia.DownsampleOGG env w (downsampleWorkerConfig workdir)
      with ⟨o, w1⟩
    rcases o with ⟨tm, err⟩ | msg
    · obtain ⟨hs, hl⟩ := ih w1
      unfold DownsampleWorker
      simp only [hcall, List.length_cons, List.take_succ_cons]
      refine ⟨List.Forall₂.cons ?_ hs, ?_⟩
      · exact ⟨w, w1, tm, err, hcall, downsampleSend_routed job tm err⟩
      · intro hp
        rw [hl hp]
    · unfold DownsampleWorker
      simp only [hcall, List.length_nil, List.take_zero]
      exact ⟨List.Forall₂.nil, fun h => absurd h (by simp)⟩

/-- The routing of the workers where `DownsampleOGG` returns.  `DownsampleWorker`
makes one send for each job it receives, in order, for as long as `DownsampleOGG`
returns: to `failed` with `Err` set and `TargetMedia` unchanged
when `DownsampleOGG` returned an error, and otherwise to `success` with `TargetMedia`
set to the returned descriptor and `Err` unchanged; so no job whose transform failed
is sent on `success`, the input of the Transcribe stage.  With an output directory
that exists and scratch workspaces that never contain it, `DownsampleOGG` returns for
every job, and every job received is sent exactly once.  `TranscriptionWorker` makes
exactly one send per job received, with `Err` set on failure and `Transcript` set on
success. -/
theorem workers_send_each_job_once (env : Env) (workdir : String) (w : World)
    (jobs : List Job) (transcribe : Nat → String → Transcript × Option GoError)
    (transformed : List Job) :
    ((w.fs workdir).isSome = true →
      (∀ fs d, env.mkdirTemp fs = (d, none) → isUnder d workdir = false) →
      (DownsampleWorker env workdir w jobs).panic = none ∧
      (DownsampleWorker env workdir w jobs).sends.length = jobs.length ∧
      List.Forall₂ (TransformRouted env workdir) jobs
        (DownsampleWorker env workdir w jobs).sends) ∧
    (List.Forall₂ (TransformRouted env workdir)
        (jobs.take (DownsampleWorker env workdir w jobs).sends.length)
        (DownsampleWorker env workdir w jobs).sends ∧
      ((DownsampleWorker env workdir w jobs).panic = none →
        (DownsampleWorker env workdir w jobs).sends.length = jobs.length)) ∧
    (TranscriptionWorker transcribe 0 transformed).length = transformed.length ∧
    List.Forall₂ (TranscribeRouted transcribe) transformed
      (TranscriptionWorker transcribe 0 transformed) := by
  have ht := TranscriptionWorker_routed transcribe transformed 0
  refine ⟨?_, DownsampleWorker_sends_initial_segment env workdir jobs w, ht.length_eq.symm, ht⟩
  intro hdir hscratch
  obtain ⟨hp, hs⟩ := DownsampleWorker_total env workdir hscratch jobs w hdir
  exact ⟨hp, hs.length_eq.symm, hs⟩

/-- The routing at an example: the worker receives the example source and then a
`.flac` file; it sends the first on `success` and the second on `failed`.  The
transcription worker receives two jobs; its first call succeeds and its second
fails. -/
theorem workers_send_each_job_once_witness :
    ((exampleWorld.fs "/out").isSome = true ∧
      (∀ fs d, (exampleEnv 7992132 "").mkdirTemp fs = (d, none) → isUnder d "/out" = false)) ∧
    ((DownsampleWorker (exampleEnv 7992132 "") "/out" exampleWorld exampleJobs).panic = none ∧
      (DownsampleWorker (exampleEnv 7992132 "") "/out" exampleWorld exampleJobs).sends.length =
        exampleJobs.length ∧
      List.Forall₂ (TransformRouted (exampleEnv 7992132 "") "/out") exampleJobs
        (DownsampleWorker (exampleEnv 7992132 "") "/out" exampleWorld exampleJobs).sends) ∧
    ((TranscriptionWorker exampleTranscribe 0 exampleJobs).length = exampleJobs.length ∧
      List.Forall₂ (TranscribeRouted exampleTranscribe) exampleJobs
        (TranscriptionWorker exampleTranscribe 0 exampleJobs)) ∧
    (DownsampleWorker (exampleEnv 7992132 "") "/out" exampleWorld exampleJobs).sends.map
        (fun s => s.1) = [Output.success, Output.failed] ∧
    (TranscriptionWorker exampleTranscribe 0 exampleJobs).map (fun s => s.1) =
      [Output.success, Output.failed] :=
  have hscratch : ∀ fs d, (exampleEnv 7992132 "").mkdirTemp fs = (d, none) →
      isUnder d "/out" = false := by
    intro fs d hd
    have hd1 : d = "/tmp/spiritor123" := (congrArg Prod.fst hd).symm
    subst hd1
    decide
  ⟨⟨by decide, hscratch⟩,
    (workers_send_each_job_once (exampleEnv 7992132 "") "/out" exampleWorld exampleJobs
      exampleTranscribe exampleJobs).1 (by decide) hscratch,
    (workers_send_each_job_once (exampleEnv 7992132 "") "/out" exampleWorld exampleJobs
      exampleTranscribe exampleJobs).2.2,
    by decide, by decide⟩

/-- C11. With the output directory "/does/not/exist", which is not in the file
system, the worker receives two jobs (the first with an initialized `.MP3` source) and
sends neither: the call of `DownsampleOGG` for the first job ends in the nil
dereference of `Validate`, the panic ends the worker, and no job is sent on `success`
or on `failed`, where the claim has every received job sent exactly once. -/
theorem DownsampleWorker_panics_without_output_directory :
    exampleWorld.fs "/does/not/exist" = none ∧
    exampleJobs.length = 2 ∧
    (exampleJobs.map (fun j => j.SourceMedia.initialized)) = [true, true] ∧
    (DownsampleWorker (exampleEnv 7992132 "") "/does/not/exist" exampleWorld exampleJobs).panic =
      some nilDereference ∧
    (DownsampleWorker (exampleEnv 7992132 "") "/does/not/exist" exampleWorld
      exampleJobs).sends.length = 0 :=
  ⟨by decide, by decide, by decide, by decide, by decide⟩

/-! ## The pipeline -/

theorem poolWeight_append (f : WorkerState → Nat) (a b : List WorkerState) :
    poolWeight f (a ++ b) = poolWeight f a + poolWeight f b := by
  induction a with
  | nil => simp [poolWeight]
  | cons w ws ih => simp [poolWeight, ih]; omega

theorem heldIds_append (a b : List WorkerState) : heldIds (a ++ b) = heldIds a ++ heldIds b := by
  induction a with
  | nil => simp [heldIds]
  | cons w ws ih => simp [heldIds, ih]

/-- Every step lowers the measure: no execution of the pipeline is infinite. -/
theorem Step.measure_lt {s t : Pipeline} (h : Step s t) : t.measure < s.measure := by
  cases h with
  | submit pre post m hp hm ht =>
    have hlt : s.submitted < s.files.length := by
      rcases Nat.lt_or_ge s.submitted s.files.length with h | h
      · exact h
      · rw [List.getElem?_eq_none h] at hm
        exact absurd hm (by simp)
    simp only [Pipeline.measure, ht, poolWeight_append, poolWeight, WorkerState.weightT]
    omega
  | transformDone pre post id job tm err hp ht =>
    simp only [Pipeline.measure, ht, poolWeight_append, poolWeight]
    cases err <;> simp only [downsampleSend, WorkerState.weightT] <;> omega
  | transformFailed pre post id job hp ht hc hr =>
    simp only [Pipeline.measure, ht, poolWeight_append, poolWeight, WorkerState.weightT,
      List.length_append, List.length_singleton]
    omega
  | transformFailedClosed pre post id job hp ht hc =>
    simp only [Pipeline.measure, hp]
    simp
  | handOver pre post pre2 post2 id job hp ht hx hc =>
    simp only [Pipeline.measure, ht, hx, poolWeight_append, poolWeight, WorkerState.weightT,
      WorkerState.weightX]
    omega
  | handOverClosed pre post id job hp ht hc =>
    simp only [Pipeline.measure, hp]
    simp
  | transcribeDone pre post id job ts err hp hx =>
    simp only [Pipeline.measure, hx, poolWeight_append, poolWeight]
    cases err <;> simp only [transcriptionSend, WorkerState.weightX] <;> omega
  | transcribeSend pre post out id job hp hx hc hr =>
    simp only [Pipeline.measure, hx, poolWeight_append, poolWeight, WorkerState.weightX,
      List.length_append, List.length_singleton]
    omega
  | transcribeSendClosed pre post out id job hp hx hc =>
    simp only [Pipeline.measure, hp]
    simp
  | receive d rest hp hs hr hres =>
    simp only [Pipeline.measure, hres, List.length_cons]
    omega
  | close hp hs hr hc =>
    simp only [Pipeline.measure]
    omega
  | transformExit pre post hp ht hc =>
    simp only [Pipeline.measure, ht, poolWeight_append, poolWeight, WorkerState.weightT]
    omega
  | transcribeExit pre post hp hx hc =>
    simp only [Pipeline.measure, hx, poolWeight_append, poolWeight, WorkerState.weightX]
    omega

theorem heldIds_replicate_receiving (n : Nat) :
    heldIds (List.replicate n WorkerState.receiving) = [] := by
  induction n with
  | zero => rfl
  | succ n ih => simp [List.replicate_succ, heldIds, WorkerState.ids, ih]

theorem Pipeline.Inv.start (files : List Media) (nT nX : Nat) :
    Pipeline.Inv files nT nX (Pipeline.init files nT nX) where
  files_eq := rfl
  nT_eq := by simp [Pipeline.init]
  nX_eq := by simp [Pipeline.init]
  submitted_le := by simp [Pipeline.init]
  closed_le := by simp [Pipeline.init]
  count := by intro id; simp [Pipeline.init, heldIds_replicate_receiving]
  total := by simp [Pipeline.init, heldIds_replicate_receiving]
  closed_pos := by simp [Pipeline.init]
  no_panic := rfl
  exitedT := by
    intro h
    simp only [Pipeline.init] at h
    exact absurd (List.eq_of_mem_replicate h) (by simp)
  exitedX := by
    intro h
    simp only [Pipeline.init] at h
    exact absurd (List.eq_of_mem_replicate h) (by simp)
  okT := by
    intro w h
    simp only [Pipeline.init] at h
    rw [List.eq_of_mem_replicate h]
    trivial
  okX := by
    intro w h
    simp only [Pipeline.init] at h
    rw [List.eq_of_mem_replicate h]
    trivial
  okD := by simp [Pipeline.init]

theorem mem_replace {w x y : WorkerState} {pre post : List WorkerState}
    (h : w ∈ pre ++ y :: post) : w = y ∨ w ∈ pre ++ x :: post := by
  simp only [List.mem_append, List.mem_cons] at h ⊢
  rcases h with h | h | h
  · exact Or.inr (Or.inl h)
  · exact Or.inl h
  · exact Or.inr (Or.inr (Or.inr h))

theorem ok_replace {files : List Media} {x y : WorkerState} {pre post : List WorkerState}
    (h : ∀ w ∈ pre ++ x :: post, w.ok files) (hy : y.ok files) :
    ∀ w ∈ pre ++ y :: post, w.ok files := by
  intro w hw
  rcases mem_replace (x := x) hw with e | hm
  · rw [e]; exact hy
  · exact h w hm

theorem exited_replace {x y : WorkerState} {pre post : List WorkerState} {P : Prop}
    (h : WorkerState.exited ∈ pre ++ x :: post → P) (hy : y ≠ WorkerState.exited) :
    WorkerState.exited ∈ pre ++ y :: post → P := by
  intro hw
  rcases mem_replace (x := x) hw with e | hm
  · exact absurd e.symm hy
  · exact h hm

theorem getElem?_lt_of_eq_some {α : Type} {l : List α} {i : Nat} {a : α}
    (h : l[i]? = some a) : i < l.length := by
  rcases Nat.lt_or_ge i l.length with h1 | h1
  · exact h1
  · rw [List.getElem?_eq_none h1] at h
    exact absurd h (by simp)

/-- Every step keeps the invariant. -/
theorem Pipeline.Inv.step {files : List Media} {nT nX : Nat} {s t : Pipeline}
    (inv : Pipeline.Inv files nT nX s) (h : Step s t) : Pipeline.Inv files nT nX t := by
  have hT := inv.nT_eq
  have hX := inv.nX_eq
  have hcnt := inv.count
  have htot := inv.total
  have hcp := inv.closed_pos
  have hexT := inv.exitedT
  have hexX := inv.exitedX
  have hokT := inv.okT
  have hokX := inv.okX
  have hokD := inv.okD
  cases h with
  | submit pre post m hp hm ht =>
    have hlt := getElem?_lt_of_eq_some hm
    rw [ht] at hT hcnt htot hexT hokT
    refine ⟨inv.files_eq, ?_, inv.nX_eq, ?_, inv.closed_le, ?_, ?_, ?_, inv.no_panic, ?_,
      inv.exitedX, ?_, inv.okX, inv.okD⟩
    · simpa using hT
    · exact hlt
    · intro id
      have hc := hcnt id
      simp only [heldIds_append, heldIds, WorkerState.ids, List.count_append, List.count_cons,
        List.count_nil, List.nil_append, List.cons_append, beq_iff_eq] at hc ⊢
      split_ifs at hc ⊢ <;> omega
    · simp only [heldIds_append, heldIds, WorkerState.ids, List.length_append, List.length_cons,
        List.length_nil, List.nil_append, List.cons_append] at htot ⊢
      omega
    · intro h
      have := hcp h
      omega
    · exact exited_replace hexT (by simp)
    · exact ok_replace hokT (by simpa [WorkerState.ok, Job.new] using hm)
  | transformDone pre post id job tm err hp ht =>
    rw [ht] at hT hcnt htot hexT hokT
    refine ⟨inv.files_eq, ?_, inv.nX_eq, inv.submitted_le, inv.closed_le, ?_, ?_, inv.closed_pos,
      inv.no_panic, ?_, inv.exitedX, ?_, inv.okX, inv.okD⟩
    · simpa using hT
    · intro i
      have hc := hcnt i
      simp only [heldIds_append, heldIds, WorkerState.ids, List.count_append, List.count_cons,
        List.count_nil, List.nil_append, List.cons_append, beq_iff_eq] at hc ⊢
      exact hc
    · simp only [heldIds_append, heldIds, WorkerState.ids, List.length_append, List.length_cons,
        List.length_nil, List.nil_append, List.cons_append] at htot ⊢
      exact htot
    · exact exited_replace hexT (by simp)
    · apply ok_replace hokT
      have hw := hokT (.working id job) (by simp)
      simp only [WorkerState.ok] at hw ⊢
      cases err <;> simp [downsampleSend, hw]
  | transformFailed pre post id job hp ht hc hr =>
    rw [ht] at hT hcnt htot hexT hokT
    have hw := hokT (.sending .failed id job) (by simp)
    simp only [WorkerState.ok] at hw
    refine ⟨inv.files_eq, ?_, inv.nX_eq, inv.submitted_le, inv.closed_le, ?_, ?_, ?_,
      inv.no_panic, ?_, inv.exitedX, ?_, inv.okX, ?_⟩
    · simpa using hT
    · intro i
      have hc := hcnt i
      simp only [heldIds_append, heldIds, WorkerState.ids, List.count_append, List.count_cons,
        List.count_nil, List.nil_append, List.cons_append, List.map_append, List.map_cons,
        List.map_nil, beq_iff_eq] at hc ⊢
      split_ifs at hc ⊢ <;> omega
    · simp only [heldIds_append, heldIds, WorkerState.ids, List.length_append, List.length_cons,
        List.length_nil, List.nil_append, List.cons_append] at htot ⊢
      omega
    · intro h
      simp only at h
      omega
    · exact exited_replace hexT (by simp)
    · exact ok_replace hokT trivial
    · intro d hd
      simp only [List.mem_append, List.mem_singleton] at hd
      rcases hd with (hd | hd) | hd
      · exact hokD d (by simp [hd])
      · rw [hd]
        exact ⟨hw.1, Or.inl (hw.2 trivial)⟩
      · exact hokD d (by simp [hd])
  | transformFailedClosed pre post id job hp ht hc =>
    exfalso
    rw [ht] at htot
    have := hcp (by omega)
    simp only [heldIds_append, heldIds, WorkerState.ids, List.length_append, List.length_cons,
      List.length_nil, List.nil_append, List.cons_append] at htot
    omega
  | handOver pre post pre2 post2 id job hp ht hx hc =>
    rw [ht] at hT hcnt htot hexT hokT
    rw [hx] at hX hcnt htot hexX hokX
    have hw := hokT (.sending .success id job) (by simp)
    simp only [WorkerState.ok] at hw
    refine ⟨inv.files_eq, ?_, ?_, inv.submitted_le, inv.closed_le, ?_, ?_, inv.closed_pos,
      inv.no_panic, ?_, ?_, ?_, ?_, inv.okD⟩
    · simpa using hT
    · simpa using hX
    · intro i
      have hc := hcnt i
      simp only [heldIds_append, heldIds, WorkerState.ids, List.count_append, List.count_cons,
        List.count_nil, List.nil_append, List.cons_append, beq_iff_eq] at hc ⊢
      split_ifs at hc ⊢ <;> omega
    · simp only [heldIds_append, heldIds, WorkerState.ids, List.length_append, List.length_cons,
        List.length_nil, List.nil_append, List.cons_append] at htot ⊢
      omega
    · exact exited_replace hexT (by simp)
    · exact exited_replace hexX (by simp)
    · exact ok_replace hokT trivial
    · exact ok_replace hokX hw.1
  | handOverClosed pre post id job hp ht hc =>
    exfalso
    rw [ht] at htot
    have := hcp (by omega)
    simp only [heldIds_append, heldIds, WorkerState.ids, List.length_append, List.length_cons,
      List.length_nil, List.nil_append, List.cons_append] at htot
    omega
  | transcribeDone pre post id job ts err hp hx =>
    rw [hx] at hX hcnt htot hexX hokX
    refine ⟨inv.files_eq, inv.nT_eq, ?_, inv.submitted_le, inv.closed_le, ?_, ?_, inv.closed_pos,
      inv.no_panic, inv.exitedT, ?_, inv.okT, ?_, inv.okD⟩
    · simpa using hX
    · intro i
      have hc := hcnt i
      simp only [heldIds_append, heldIds, WorkerState.ids, List.count_append, List.count_cons,
        List.count_nil, List.nil_append, List.cons_append, beq_iff_eq] at hc ⊢
      exact hc
    · simp only [heldIds_append, heldIds, WorkerState.ids, List.length_append, List.length_cons,
        List.length_nil, List.nil_append, List.cons_append] at htot ⊢
      exact htot
    · exact exited_replace hexX (by simp)
    · apply ok_replace hokX
      have hw := hokX (.working id job) (by simp)
      simp only [WorkerState.ok] at hw ⊢
      cases err <;> simp [transcriptionSend, hw]
  | transcribeSend pre post out id job hp hx hc hr =>
    rw [hx] at hX hcnt htot hexX hokX
    have hw := hokX (.sending out id job) (by simp)
    simp only [WorkerState.ok] at hw
    refine ⟨inv.files_eq, inv.nT_eq, ?_, inv.submitted_le, inv.closed_le, ?_, ?_, ?_,
      inv.no_panic, inv.exitedT, ?_, inv.okT, ?_, ?_⟩
    · simpa using hX
    · intro i
      have hc := hcnt i
      simp only [heldIds_append, heldIds, WorkerState.ids, List.count_append, List.count_cons,
        List.count_nil, List.nil_append, List.cons_append, List.map_append, List.map_cons,
        List.map_nil, beq_iff_eq] at hc ⊢
      split_ifs at hc ⊢ <;> omega
    · simp only [heldIds_append, heldIds, WorkerState.ids, List.length_append, List.length_cons,
        List.length_nil, List.nil_append, List.cons_append] at htot ⊢
      omega
    · intro h
      simp only at h
      omega
    · exact exited_replace hexX (by simp)
    · exact ok_replace hokX trivial
    · intro d hd
      simp only [List.mem_append, List.mem_singleton] at hd
      rcases hd with (hd | hd) | hd
      · exact hokD d (by simp [hd])
      · rw [hd]
        refine ⟨hw.1, ?_⟩
        cases out
        · exact Or.inr ⟨rfl, rfl⟩
        · exact Or.inl (hw.2 rfl)
      · exact hokD d (by simp [hd])
  | transcribeSendClosed pre post out id job hp hx hc =>
    exfalso
    rw [hx] at htot
    have := hcp (by omega)
    simp only [heldIds_append, heldIds, WorkerState.ids, List.length_append, List.length_cons,
      List.length_nil, List.nil_append, List.cons_append] at htot
    omega
  | receive d rest hp hs hr hres =>
    rw [hres] at hcnt htot hokD
    refine ⟨inv.files_eq, inv.nT_eq, inv.nX_eq, inv.submitted_le, inv.closed_le, ?_, ?_, ?_,
      inv.no_panic, inv.exitedT, inv.exitedX, inv.okT, inv.okX, ?_⟩
    · intro i
      have hc := hcnt i
      simp only [List.count_append, List.count_cons, List.count_nil, List.map_append,
        List.map_cons, List.map_nil, beq_iff_eq] at hc ⊢
      split_ifs at hc ⊢ <;> omega
    · simp only [List.length_append, List.length_cons, List.length_nil] at htot ⊢
      omega
    · intro h
      have := hcp h
      omega
    · intro x hx
      apply hokD x
      simp only [List.mem_append, List.mem_cons, List.mem_nil_iff, or_false] at hx ⊢
      tauto
  | close hp hs hr hc =>
    refine ⟨inv.files_eq, inv.nT_eq, inv.nX_eq, inv.submitted_le, ?_, inv.count, inv.total, ?_,
      inv.no_panic, ?_, ?_, inv.okT, inv.okX, inv.okD⟩
    · simp only
      omega
    · intro _
      exact ⟨hs, hr⟩
    · intro h
      have := hexT h
      simp only
      omega
    · intro h
      have := hexX h
      simp only
      omega
  | transformExit pre post hp ht hc =>
    rw [ht] at hT hcnt htot hexT hokT
    refine ⟨inv.files_eq, ?_, inv.nX_eq, inv.submitted_le, inv.closed_le, ?_, ?_, inv.closed_pos,
      inv.no_panic, ?_, inv.exitedX, ?_, inv.okX, inv.okD⟩
    · simpa using hT
    · intro i
      have hc := hcnt i
      simp only [heldIds_append, heldIds, WorkerState.ids, List.count_append, List.count_cons,
        List.count_nil, List.nil_append, List.cons_append, beq_iff_eq] at hc ⊢
      exact hc
    · simp only [heldIds_append, heldIds, WorkerState.ids, List.length_append, List.length_cons,
        List.length_nil, List.nil_append, List.cons_append] at htot ⊢
      exact htot
    · intro _
      exact hc
    · exact ok_replace hokT trivial
  | transcribeExit pre post hp hx hc =>
    rw [hx] at hX hcnt htot hexX hokX
    refine ⟨inv.files_eq, inv.nT_eq, ?_, inv.submitted_le, inv.closed_le, ?_, ?_, inv.closed_pos,
      inv.no_panic, inv.exitedT, ?_, inv.okT, ?_, inv.okD⟩
    · simpa using hX
    · intro i
      have hc := hcnt i
      simp only [heldIds_append, heldIds, WorkerState.ids, List.count_append, List.count_cons,
        List.count_nil, List.nil_append, List.cons_append, beq_iff_eq] at hc ⊢
      exact hc
    · simp only [heldIds_append, heldIds, WorkerState.ids, List.length_append, List.length_cons,
        List.length_nil, List.nil_append, List.cons_append] at htot ⊢
      exact htot
    · intro _
      exact hc
    · exact ok_replace hokX trivial

/-- The invariant holds in every reachable state. -/
theorem Pipeline.Inv.reachable {files : List Media} {nT nX : Nat} {s : Pipeline}
    (h : Reachable (Pipeline.init files nT nX) s) : Pipeline.Inv files nT nX s := by
  induction h with
  | start => exact Pipeline.Inv.start files nT nX
  | step s t _ hst ih => exact ih.step hst

theorem pool_cases (ws : List WorkerState) :
    (∃ pre id job post, ws = pre ++ WorkerState.working id job :: post) ∨
    (∃ pre out id job post, ws = pre ++ WorkerState.sending out id job :: post) ∨
    (∀ w ∈ ws, w = WorkerState.receiving ∨ w = WorkerState.exited) := by
  induction ws with
  | nil => exact Or.inr (Or.inr (by simp))
  | cons x xs ih =>
    cases x with
    | working id job => exact Or.inl ⟨[], id, job, xs, rfl⟩
    | sending out id job => exact Or.inr (Or.inl ⟨[], out, id, job, xs, rfl⟩)
    | receiving =>
      rcases ih with ⟨pre, id, job, post, h⟩ | ⟨pre, out, id, job, post, h⟩ | h
      · exact Or.inl ⟨.receiving :: pre, id, job, post, by rw [h]; rfl⟩
      · exact Or.inr (Or.inl ⟨.receiving :: pre, out, id, job, post, by rw [h]; rfl⟩)
      · refine Or.inr (Or.inr ?_)
        intro w hw
        rcases List.mem_cons.mp hw with e | hm
        · exact Or.inl e
        · exact h w hm
    | exited =>
      rcases ih with ⟨pre, id, job, post, h⟩ | ⟨pre, out, id, job, post, h⟩ | h
      · exact Or.inl ⟨.exited :: pre, id, job, post, by rw [h]; rfl⟩
      · exact Or.inr (Or.inl ⟨.exited :: pre, out, id, job, post, by rw [h]; rfl⟩)
      · refine Or.inr (Or.inr ?_)
        intro w hw
        rcases List.mem_cons.mp hw with e | hm
        · exact Or.inr e
        · exact h w hm

theorem heldIds_of_idle (ws : List WorkerState)
    (h : ∀ w ∈ ws, w = WorkerState.receiving ∨ w = WorkerState.exited) : heldIds ws = [] := by
  induction ws with
  | nil => rfl
  | cons x xs ih =>
    have hx := h x (by simp)
    have hxs := ih (fun w hw => h w (by simp [hw]))
    rcases hx with e | e <;> simp [heldIds, WorkerState.ids, e, hxs]

/-- Deadlock freedom: with at least one worker per stage, as long as fewer than
`len(files)` results have been received some goroutine can take a step. -/
theorem Pipeline.Inv.progress {files : List Media} {nT nX : Nat} {s : Pipeline}
    (inv : Pipeline.Inv files nT nX s) (hT : 0 < nT) (hX : 0 < nX)
    (hlt : s.received.length < s.files.length) : ∃ t, Step s t := by
  have hp := inv.no_panic
  have hc0 : s.closed = 0 := by
    rcases Nat.eq_zero_or_pos s.closed with h | h
    · exact h
    · have := inv.closed_pos h
      omega
  have htot := inv.total
  have hsub := inv.submitted_le
  -- what the transcription stage can do on its own
  have stageX : (∃ t, Step s t) ∨
      (∀ w ∈ s.transcribers, w = WorkerState.receiving ∨ w = WorkerState.exited) := by
    rcases pool_cases s.transcribers with ⟨pre, id, job, post, h⟩ | ⟨pre, out, id, job, post, h⟩ | h
    · exact Or.inl ⟨_, Step.transcribeDone s pre post id job Transcript.zero none hp h⟩
    · refine Or.inl ⟨_, Step.transcribeSend s pre post out id job hp h hc0 ?_⟩
      rw [h] at htot
      simp only [heldIds_append, heldIds, WorkerState.ids, List.length_append, List.length_cons,
        List.length_nil, List.nil_append, List.cons_append] at htot
      omega
    · exact Or.inr h
  rcases stageX with hstep | hidleX
  · exact hstep
  · have hheadX : ∃ post2, s.transcribers = WorkerState.receiving :: post2 := by
      have hlen := inv.nX_eq
      rcases hxs : s.transcribers with _ | ⟨x, xs⟩
      · rw [hxs] at hlen
        simp at hlen
        omega
      · rcases hidleX x (by rw [hxs]; simp) with e | e
        · exact ⟨xs, by rw [e]⟩
        · have := inv.exitedX (by rw [hxs, e]; simp)
          omega
    obtain ⟨post2, hx2⟩ := hheadX
    rcases pool_cases s.transformers with ⟨pre, id, job, post, h⟩ | ⟨pre, out, id, job, post, h⟩ | h
    · exact ⟨_, Step.transformDone s pre post id job Media.zero none hp h⟩
    · cases out with
      | failed =>
        refine ⟨_, Step.transformFailed s pre post id job hp h hc0 ?_⟩
        rw [h] at htot
        simp only [heldIds_append, heldIds, WorkerState.ids, List.length_append,
          List.length_cons, List.length_nil, List.nil_append, List.cons_append] at htot
        omega
      | success =>
        exact ⟨_, Step.handOver s pre post [] post2 id job hp h hx2 (by omega)⟩
    · have hheadT : ∃ post, s.transformers = WorkerState.receiving :: post := by
        have hlen := inv.nT_eq
        rcases hts : s.transformers with _ | ⟨x, xs⟩
        · rw [hts] at hlen
          simp at hlen
          omega
        · rcases h x (by rw [hts]; simp) with e | e
          · exact ⟨xs, by rw [e]⟩
          · have := inv.exitedT (by rw [hts, e]; simp)
            omega
      obtain ⟨post, ht⟩ := hheadT
      rw [heldIds_of_idle _ h, heldIds_of_idle _ hidleX] at htot
      simp only [List.length_nil] at htot
      rcases Nat.lt_or_ge s.submitted s.files.length with hs | hs
      · have hm : s.files[s.submitted]? = some (s.files[s.submitted]) :=
          List.getElem?_eq_getElem hs
        exact ⟨_, Step.submit s [] post _ hp hm ht⟩
      · have hs' : s.submitted = s.files.length := Nat.le_antisymm hsub hs
        rcases hres : s.results with _ | ⟨d, rest⟩
        · rw [hres] at htot
          simp at htot
          omega
        · exact ⟨_, Step.receive s d rest hp hs' hlt hres⟩

theorem count_range (n id : Nat) : (List.range n).count id = if id < n then 1 else 0 := by
  split_ifs with h
  · exact List.count_eq_one_of_mem (List.nodup_range n) (List.mem_range.mpr h)
  · exact List.count_eq_zero_of_not_mem (by simpa using h)

/-- In a reachable state whatever is in `jobResults` or has been taken from it
belongs to distinct submitted jobs; once `len(files)` results have been received they
are the submitted jobs, each exactly once. -/
theorem Pipeline.Inv.delivered {files : List Media} {nT nX : Nat} {s : Pipeline}
    (inv : Pipeline.Inv files nT nX s) :
    s.received.length ≤ s.files.length ∧
    ((s.results ++ s.received).map Delivery.id).Nodup ∧
    (s.received.length = s.files.length →
      (s.received.map Delivery.id).Perm (List.range s.files.length)) := by
  have htot := inv.total
  have hsub := inv.submitted_le
  refine ⟨by omega, ?_, ?_⟩
  · rw [List.nodup_iff_count_le_one]
    intro id
    have hc := inv.count id
    simp only [List.map_append, List.count_append]
    split_ifs at hc <;> omega
  · intro hall
    have h1 : (heldIds s.transformers).length = 0 := by omega
    have h2 : (heldIds s.transcribers).length = 0 := by omega
    have h3 : s.results.length = 0 := by omega
    have h4 : s.submitted = s.files.length := by omega
    rw [List.perm_iff_count]
    intro id
    have hc := inv.count id
    rw [List.length_eq_zero] at h1 h2 h3
    rw [h1, h2, h3, h4] at hc
    simp only [List.count_nil, List.map_nil, Nat.zero_add] at hc
    rw [hc, count_range]

theorem closedEarlyState_reachable :
    Reachable (Pipeline.init [exampleSource] 1 1) closedEarlyState := by
  have r0 : Reachable (Pipeline.init [exampleSource] 1 1) (Pipeline.init [exampleSource] 1 1) :=
    Reachable.start
  have r1 := Reachable.step _ _ r0
    (Step.submit (Pipeline.init [exampleSource] 1 1) [] [] exampleSource rfl rfl rfl)
  have r2 := Reachable.step _ _ r1
    (Step.transformDone _ [] [] 0 (Job.new exampleSource) Media.zero
      (some (.ErrSizeCapExceeded MaxUploadSize 30000000)) rfl rfl)
  have r3 := Reachable.step _ _ r2
    (Step.transformFailed _ [] [] 0 exampleFailedJob rfl rfl rfl (by decide))
  have r4 := Reachable.step _ _ r3
    (Step.receive _ { id := 0, job := exampleFailedJob, stage := .transform, out := .failed } []
      rfl rfl (by decide) rfl)
  have r5 := Reachable.step _ _ r4 (Step.close _ rfl rfl rfl (by decide))
  have r6 := Reachable.step _ _ r5 (Step.close _ rfl rfl rfl (by decide))
  exact r6

theorem deliveredState_reachable :
    Reachable (Pipeline.init [exampleSource] 1 1) deliveredState := by
  have r0 : Reachable (Pipeline.init [exampleSource] 1 1) (Pipeline.init [exampleSource] 1 1) :=
    Reachable.start
  have r1 := Reachable.step _ _ r0
    (Step.submit (Pipeline.init [exampleSource] 1 1) [] [] exampleSource rfl rfl rfl)
  have r2 := Reachable.step _ _ r1
    (Step.transformDone _ [] [] 0 (Job.new exampleSource)
      (Media.mk "/out/example_zoom.MP3.ogg" 7992132 2705000000000 0 true) none rfl rfl)
  have r3 := Reachable.step _ _ r2
    (Step.handOver _ [] [] [] [] 0
      (downsampleSend (Job.new exampleSource)
        (Media.mk "/out/example_zoom.MP3.ogg" 7992132 2705000000000 0 true) none).2
      rfl rfl rfl (by decide))
  have r4 := Reachable.step _ _ r3
    (Step.transcribeDone _ [] [] 0
      (downsampleSend (Job.new exampleSource)
        (Media.mk "/out/example_zoom.MP3.ogg" 7992132 2705000000000 0 true) none).2
      { Task := "transcribe", Language := "en", Text := "hello" } none rfl rfl)
  have r5 := Reachable.step _ _ r4
    (Step.transcribeSend _ [] [] .success 0 exampleTranscribedJob rfl rfl rfl (by decide))
  have r6 := Reachable.step _ _ r5
    (Step.receive _
      { id := 0, job := exampleTranscribedJob, stage := .transcribe, out := .success } []
      rfl rfl (by decide) rfl)
  exact r6

/-- C12. For every list of submitted files and at least one worker per stage, in
every state that an execution of the pipeline reaches: at most `len(files)` results
have been received; the jobs in `jobResults` and those received belong to distinct
positions of `files`, carry the source submitted at their position and are terminal
(`Err` set, or sent by a transcription worker on its success channel); while fewer
than `len(files)` results have been received some goroutine can step; and a state
from which no step is possible has received the submitted jobs, each exactly once.
Every step lowers `Pipeline.measure`, so no execution is infinite: every
interleaving ends with exactly `len(files)` results received. -/
theorem pipeline_delivers_every_job (files : List Media) (nT nX : Nat)
    (hT : 0 < nT) (hX : 0 < nX) :
    (∀ s, Reachable (Pipeline.init files nT nX) s →
      s.received.length ≤ files.length ∧
      ((s.results ++ s.received).map Delivery.id).Nodup ∧
      (∀ d ∈ s.results ++ s.received, files[d.id]? = some d.job.SourceMedia ∧ d.terminal) ∧
      (s.received.length < files.length → ∃ t, Step s t) ∧
      ((∀ t, ¬ Step s t) →
        s.received.length = files.length ∧
        (s.received.map Delivery.id).Perm (List.range files.length))) ∧
    (∀ s t, Step s t → t.measure < s.measure) := by
  refine ⟨?_, fun s t h => h.measure_lt⟩
  intro s hs
  have inv := Pipeline.Inv.reachable hs
  have hf := inv.files_eq
  obtain ⟨hle, hnd, hperm⟩ := inv.delivered
  rw [hf] at hle hperm
  have hprog : s.received.length < files.length → ∃ t, Step s t := by
    intro hlt
    exact inv.progress hT hX (by rw [hf]; exact hlt)
  refine ⟨hle, hnd, ?_, hprog, ?_⟩
  · intro d hd
    have := inv.okD d hd
    rw [hf] at this
    exact this
  · intro hfinal
    have hall : s.received.length = files.length := by
      rcases Nat.lt_or_ge s.received.length files.length with hlt | hge
      · obtain ⟨t, ht⟩ := hprog hlt
        exact absurd ht (hfinal t)
      · omega
    exact ⟨hall, hperm hall⟩

/-- Witness of C12: one file and one worker per stage; the state in which the job
has passed both stages and has been received is reachable. -/
theorem pipeline_delivers_every_job_witness :
    ((0 : Nat) < 1 ∧ (0 : Nat) < 1) ∧
    ((∀ s, Reachable (Pipeline.init [exampleSource] 1 1) s →
      s.received.length ≤ [exampleSource].length ∧
      ((s.results ++ s.received).map Delivery.id).Nodup ∧
      (∀ d ∈ s.results ++ s.received,
        [exampleSource][d.id]? = some d.job.SourceMedia ∧ d.terminal) ∧
      (s.received.length < [exampleSource].length → ∃ t, Step s t) ∧
      ((∀ t, ¬ Step s t) →
        s.received.length = [exampleSource].length ∧
        (s.received.map Delivery.id).Perm (List.range [exampleSource].length))) ∧
    (∀ s t, Step s t → t.measure < s.measure)) ∧
    Reachable (Pipeline.init [exampleSource] 1 1) deliveredState ∧
    deliveredState.received.length = 1 :=
  ⟨⟨by decide, by decide⟩,
    pipeline_delivers_every_job [exampleSource] 1 1 (by decide) (by decide),
    deliveredState_reachable, rfl⟩

/-- C13, as stated, fails: `closedEarlyState` is reachable, and in it the queue
between the stages is closed (`Run` has executed its second deferred `close`) while
the only transform worker has not exited: it is still blocked in its `range`. -/
theorem pipeline_closes_handover_before_transformers_exit :
    Reachable (Pipeline.init [exampleSource] 1 1) closedEarlyState ∧
    2 ≤ closedEarlyState.closed ∧ closedEarlyState.closed < 3 ∧
    closedEarlyState.transformers = [WorkerState.receiving] :=
  ⟨closedEarlyState_reachable, by decide, by decide, rfl⟩

/-- C13, amended. In every reachable state of the pipeline no goroutine has sent on a
closed queue.  `Run` closes a queue only when all jobs have been submitted and all
`len(files)` results have been received, and then `jobResults` is empty and no
worker holds a job; a transform worker exits only after `downsampleJobs` has been
closed (the third `close`), and a transcription worker only after `trancriptionJobs`
has been closed (the second), so the queue between the stages is closed while the
transform workers are still waiting, not after they have exited. -/
theorem pipeline_never_sends_on_closed (files : List Media) (nT nX : Nat) :
    ∀ s, Reachable (Pipeline.init files nT nX) s →
      s.sendOnClosed = false ∧
      (0 < s.closed →
        s.submitted = files.length ∧ s.received.length = files.length ∧ s.results = [] ∧
        heldIds s.transformers = [] ∧ heldIds s.transcribers = []) ∧
      (WorkerState.exited ∈ s.transformers → 3 ≤ s.closed) ∧
      (WorkerState.exited ∈ s.transcribers → 2 ≤ s.closed) := by
  intro s hs
  have inv := Pipeline.Inv.reachable hs
  have hf := inv.files_eq
  refine ⟨inv.no_panic, ?_, inv.exitedT, inv.exitedX⟩
  intro hc
  obtain ⟨h1, h2⟩ := inv.closed_pos hc
  have htot := inv.total
  rw [hf] at h1 h2
  refine ⟨h1, h2, ?_, ?_, ?_⟩
  · exact List.length_eq_zero.mp (by omega)
  · exact List.length_eq_zero.mp (by omega)
  · exact List.length_eq_zero.mp (by omega)

/-- Witness of C13 as amended, at the reachable state `closedEarlyState`. -/
theorem pipeline_never_sends_on_closed_witness :
    (Reachable (Pipeline.init [exampleSource] 1 1) closedEarlyState ∧
      0 < closedEarlyState.closed) ∧
    (closedEarlyState.sendOnClosed = false ∧
      (0 < closedEarlyState.closed →
        closedEarlyState.submitted = [exampleSource].length ∧
        closedEarlyState.received.length = [exampleSource].length ∧
        closedEarlyState.results = [] ∧
        heldIds closedEarlyState.transformers = [] ∧
        heldIds closedEarlyState.transcribers = []) ∧
      (WorkerState.exited ∈ closedEarlyState.transformers → 3 ≤ closedEarlyState.closed) ∧
      (WorkerState.exited ∈ closedEarlyState.transcribers → 2 ≤ closedEarlyState.closed)) :=
  ⟨⟨closedEarlyState_reachable, by decide⟩,
    pipeline_never_sends_on_closed [exampleSource] 1 1 closedEarlyState
      closedEarlyState_reachable⟩

end Spiritor
